import Mathlib

/-! AABB tree test utilities: the brute-force oracle and the differential checks

Shallow embedding of `AABB_tree/test/AABB_tree/AABB_test_util.h` (namespace `AABB`); the
embedding of `Embree/AABB_tree.h`, of `Polygon_mesh_processing/measure.h` and of the
critical-point accessors of `Algebraic_curve_kernel_2.h` follows it (namespace `CGAL`), then
the ray-box test `clarified::intersect` (namespace `clarified`).

* A polyhedron is seen through `Pr_generator().begin(p) .. Pr_generator().end(p)`,
  i.e. as the finite sequence of its primitives: a `List Pr`.
* The geometric kernel (`Traits().do_intersect_object()`, `intersection_object()`,
  `closest_point_object()`) and the primitive accessors (`id()`, `reference_point()`)
  are template parameters of the harness; they are the fields of `Traits`.
* An output iterator built with `std::back_inserter` is the list written so far.
* A function that starts with `assert(...)` returns an `Option`: `none` is the failed
  assertion. A check made of assertions returns a `Bool`: `true` when every assertion holds.
* `size_type` counters are natural numbers: a counter is incremented at most once per
  primitive of a sequence held in memory, so it never wraps.
* The arithmetic that the sources make in `float` or in `double` (the tolerance checks on
  squared distances, `random_in`, the narrowing to the `float` fields of `RTCBounds`,
  `clarified::intersect`) is rounded to the format (namespace `IEEE`).
-/

namespace AABB

/-- The operations `Naive_implementations` takes from `CGAL::AABB_traits<K, Pr>` and from the
primitive type `Pr`. -/
structure Traits (Query Pr Id Point Obj : Type) where
  /-- Source: `Traits().do_intersect_object()(query, pr)` -/
  do_intersect_object : Query → Pr → Bool
  /-- Source: `Traits().intersection_object()(query, pr)`, a `boost::optional<Object_and_primitive_id>` -/
  intersection_object : Query → Pr → Option (Obj × Id)
  /-- Source: `Traits().closest_point_object()(query, pr, bound)` -/
  closest_point_object : Point → Pr → Point → Point
  /-- Source: `pr.id()` -/
  id : Pr → Id
  /-- Source: `pr.reference_point()` -/
  reference_point : Pr → Point

/-- The queries of `CGAL::AABB_tree` the harness calls; the tree is a template parameter of
`Tree_vs_naive`. The enumeration queries return what they push to a fresh `back_inserter`. -/
structure Tree (Query Id Point Obj : Type) where
  do_intersect : Query → Bool
  number_of_intersected_primitives : Query → Nat
  all_intersected_primitives : Query → List Id
  any_intersected_primitive : Query → Option Id
  all_intersections : Query → List (Obj × Id)
  any_intersection : Query → Option (Obj × Id)
  closest_point : Point → Point
  closest_point_and_primitive : Point → Point × Id

section Defs

variable {Query Pr Id Point Obj : Type}

namespace Naive_implementations

/-- Source: `Naive_implementations::do_intersect`: scan with early `return true`. -/
def do_intersect (T : Traits Query Pr Id Point Obj) (query : Query) : List Pr → Bool
  | [] => false
  | pr :: rest =>
    if T.do_intersect_object query pr then true else do_intersect T query rest

/-- The `for` loop of `number_of_intersected_primitives`, `result` being the counter. -/
def number_of_intersected_primitives_loop (T : Traits Query Pr Id Point Obj) (query : Query) :
    List Pr → Nat → Nat
  | [], result => result
  | pr :: rest, result =>
    number_of_intersected_primitives_loop T query rest
      (if T.do_intersect_object query pr then result + 1 else result)

/-- Source: `Naive_implementations::number_of_intersected_primitives`: `result = 0`, then the loop. -/
def number_of_intersected_primitives (T : Traits Query Pr Id Point Obj) (query : Query)
    (p : List Pr) : Nat :=
  number_of_intersected_primitives_loop T query p 0

/-- Source: `Naive_implementations::all_intersected_primitives`; `out` is what the output iterator has
received so far, `*out++ = Pr(it).id()` appends to it. -/
def all_intersected_primitives (T : Traits Query Pr Id Point Obj) (query : Query) :
    List Pr → List Id → List Id
  | [], out => out
  | pr :: rest, out =>
    all_intersected_primitives T query rest
      (if T.do_intersect_object query pr then out ++ [T.id pr] else out)

/-- Source: `Naive_implementations::all_intersections`; `*out++ = *intersection` when the optional
returned by the kernel is engaged. -/
def all_intersections (T : Traits Query Pr Id Point Obj) (query : Query) :
    List Pr → List (Obj × Id) → List (Obj × Id)
  | [], out => out
  | pr :: rest, out =>
    all_intersections T query rest
      (match T.intersection_object query pr with
       | some intersection => out ++ [intersection]
       | none => out)

/-- The `for` loop of `closest_point`; the second argument is the variable `closest_point`. -/
def closest_point_loop (T : Traits Query Pr Id Point Obj) (query : Point) :
    List Pr → Point → Point
  | [], closest => closest
  | pr :: rest, closest =>
    closest_point_loop T query rest (T.closest_point_object query pr closest)

/-- Source: `Naive_implementations::closest_point`. `assert(it != end)` fails on the empty sequence;
otherwise the loop starts from the reference point of the first primitive and visits every
primitive, the first one included. -/
def closest_point (T : Traits Query Pr Id Point Obj) (query : Point) : List Pr → Option Point
  | [] => none
  | pr :: rest => some (closest_point_loop T query (pr :: rest) (T.reference_point pr))

/-- The `for` loop of `closest_point_and_primitive`; the state is the pair of variables
`(closest_point, closest_primitive)`. -/
def closest_point_and_primitive_loop [DecidableEq Point] (T : Traits Query Pr Id Point Obj)
    (query : Point) : List Pr → Point × Pr → Point × Pr
  | [], st => st
  | tmp_pr :: rest, (closest, closest_primitive) =>
    let tmp_pt := T.closest_point_object query tmp_pr closest
    closest_point_and_primitive_loop T query rest
      (if tmp_pt ≠ closest then (tmp_pt, tmp_pr) else (closest, closest_primitive))

/-- Source: `Naive_implementations::closest_point_and_primitive`. -/
def closest_point_and_primitive [DecidableEq Point] (T : Traits Query Pr Id Point Obj)
    (query : Point) : List Pr → Option (Point × Id)
  | [] => none
  | pr :: rest =>
    let st := closest_point_and_primitive_loop T query (pr :: rest) (T.reference_point pr, pr)
    some (st.1, T.id st.2)

end Naive_implementations

namespace Tree_vs_naive

/-- Source: `std::find(first, last, value) != last` on a vector. -/
def std_find_ne_end [DecidableEq Id] : List Id → Id → Bool
  | [], _ => false
  | x :: rest, value => if x = value then true else std_find_ne_end rest value

/-- First `for` loop of `Intersected_primitives::operator()`: it runs over
`primitives_naive` and asserts that each element is found in `primitives_tree`. -/
def Intersected_primitives_all_check [DecidableEq Id] (primitives_tree : List Id) :
    List Id → Bool
  | [] => true
  | it :: rest =>
    if std_find_ne_end primitives_tree it then
      Intersected_primitives_all_check primitives_tree rest
    else false

/-- The `any_intersected_primitive` test of `Intersected_primitives::operator()`:
`if (primitive) assert(find(...) != end); else if (primitives_naive.size() != 0) assert(false);` -/
def Intersected_primitives_any_check [DecidableEq Id] (primitives_naive : List Id)
    (primitive : Option Id) : Bool :=
  match primitive with
  | some id => std_find_ne_end primitives_naive id
  | none => if primitives_naive.length ≠ 0 then false else true

/-- Source: `Tree_vs_naive::Intersected_primitives::operator()`: `true` when no assertion fails. -/
def Intersected_primitives [DecidableEq Id] (T : Traits Query Pr Id Point Obj)
    (query : Query) (p : List Pr) (tree : Tree Query Id Point Obj) : Bool :=
  let primitives_naive := Naive_implementations.all_intersected_primitives T query p []
  let primitives_tree := tree.all_intersected_primitives query
  if Intersected_primitives_all_check primitives_tree primitives_naive then
    Intersected_primitives_any_check primitives_naive (tree.any_intersected_primitive query)
  else false

/-- Source: `Intersections::primitive_id`: the second component of an `Object_and_primitive_id`. -/
def primitive_id (o : Obj × Id) : Id := o.2

/-- The `for` loop of `Intersections::operator()`: it runs over `intersections_tree` and
asserts that the id of each element is found in `intersections_naive_id`. -/
def Intersections_all_check [DecidableEq Id] (intersections_naive_id : List Id) :
    List (Obj × Id) → Bool
  | [] => true
  | it :: rest =>
    if std_find_ne_end intersections_naive_id it.2 then
      Intersections_all_check intersections_naive_id rest
    else false

/-- The `any_intersection` test of `Intersections::operator()`; the emptiness test is made
on `intersections_naive`, the search on `intersections_naive_id`. -/
def Intersections_any_check [DecidableEq Id] (intersections_naive : List (Obj × Id))
    (intersections_naive_id : List Id) (intersection : Option (Obj × Id)) : Bool :=
  match intersection with
  | some oi => std_find_ne_end intersections_naive_id oi.2
  | none => if intersections_naive.length ≠ 0 then false else true

/-- Source: `Tree_vs_naive::Intersections::operator()`: `true` when no assertion fails.
`std::transform(..., primitive_id)` is `List.map primitive_id`. -/
def Intersections [DecidableEq Id] (T : Traits Query Pr Id Point Obj)
    (query : Query) (p : List Pr) (tree : Tree Query Id Point Obj) : Bool :=
  let intersections_naive := Naive_implementations.all_intersections T query p []
  let intersections_tree := tree.all_intersections query
  let intersections_naive_id := intersections_naive.map primitive_id
  if Intersections_all_check intersections_naive_id intersections_tree then
    Intersections_any_check intersections_naive intersections_naive_id
      (tree.any_intersection query)
  else false

end Tree_vs_naive

end Defs

/-! ## Concrete instances used to exercise the definitions -/

namespace Example

/-- Primitives are closed integer segments `[lo, hi]` of a line carrying an id; queries for
intersection are points of the line. -/
structure Seg where
  lo : Int
  hi : Int
  id : Nat
deriving DecidableEq, Repr

/-- A point lies on a segment. -/
def Seg.lies_on (s : Seg) (x : Int) : Prop := s.lo ≤ x ∧ x ≤ s.hi

/-- Squared distance on the line. -/
def sqd (q x : Int) : Int := (q - x) * (q - x)

/-- Nearest point of a segment to `q`. -/
def Seg.clamp (s : Seg) (q : Int) : Int := if q < s.lo then s.lo else if s.hi < q then s.hi else q

/-- Kernel for the segments of a line: the closest-point functor keeps the bound unless the
segment has a strictly closer point. -/
def segTraits : Traits Int Seg Nat Int Int where
  do_intersect_object := fun q s => decide (s.lo ≤ q ∧ q ≤ s.hi)
  intersection_object := fun q s => if s.lo ≤ q ∧ q ≤ s.hi then some (q, s.id) else none
  closest_point_object := fun q s bound =>
    if sqd q (s.clamp q) < sqd q bound then s.clamp q else bound
  id := Seg.id
  reference_point := Seg.lo

/-- Three segments of the line. -/
def segs : List Seg := [⟨3, 5, 10⟩, ⟨-2, -1, 11⟩, ⟨4, 9, 12⟩]

/-- A tree whose enumeration reports an id the oracle does not report. -/
def overReportingTree : Tree Int Nat Int Int where
  do_intersect := fun _ => false
  number_of_intersected_primitives := fun _ => 0
  all_intersected_primitives := fun _ => [10]
  any_intersected_primitive := fun _ => none
  all_intersections := fun _ => []
  any_intersection := fun _ => none
  closest_point := fun q => q
  closest_point_and_primitive := fun q => (q, 10)

/-- A tree whose `all_intersections` misses an intersection the oracle reports. -/
def underReportingTree : Tree Int Nat Int Int where
  do_intersect := fun _ => true
  number_of_intersected_primitives := fun _ => 1
  all_intersected_primitives := fun _ => [10]
  any_intersected_primitive := fun _ => some 10
  all_intersections := fun _ => []
  any_intersection := fun q => some (q, 10)
  closest_point := fun q => q
  closest_point_and_primitive := fun q => (q, 10)

end Example

end AABB

/-! ## The arithmetic of `float` and `double`

A finite number of `float` or of `double` is a rational number, and a value of one of these
types is held as the rational number it denotes. An operation of the source on such values
is the exact operation followed by the rounding of the format: IEEE 754 binary32 for `float`,
binary64 for `double`, to nearest, ties to even. Infinities and NaN are not values of this
model: an operation whose result overflows, and a division by zero, give `none`.
-/

namespace IEEE

/-- A binary floating-point format: `prec` is the number of bits of the significand, `emin`
the exponent of the last bit of the subnormal numbers, `emax` the exponent of the largest
finite numbers. -/
structure Format where
  prec : Nat
  emin : Int
  emax : Int
deriving DecidableEq

/-- The format of `float`. -/
def binary32 : Format := { prec := 24, emin := -149, emax := 127 }

/-- The format of `double`. -/
def binary64 : Format := { prec := 53, emin := -1074, emax := 1023 }

/-- The power of two with an integer exponent. -/
def two_pow (e : Int) : ℚ :=
  if 0 ≤ e then ((2 ^ e.toNat : Nat) : ℚ) else 1 / ((2 ^ (-e).toNat : Nat) : ℚ)

/-- The number of binary digits of `n`, found by halving at most `fuel` times. -/
def bit_length_aux : Nat → Nat → Nat
  | 0, _ => 0
  | fuel + 1, n => if n = 0 then 0 else 1 + bit_length_aux fuel (n / 2)

/-- The number of binary digits of `n` (none for 0). -/
def bit_length (n : Nat) : Nat := bit_length_aux n n

/-- The exponent of a positive rational: the largest `k` with `2 ^ k ≤ x`. It is one of the
two candidates given by the lengths of the numerator and of the denominator. -/
def floor_log2 (x : ℚ) : Int :=
  let k : Int := (bit_length x.num.natAbs : Int) - (bit_length x.den : Int)
  if two_pow k ≤ x then k else k - 1

/-- The integer nearest to `q`, the even one of the two when `q` lies half-way. -/
def round_half_even (q : ℚ) : Int :=
  let f := Rat.floor q
  let r := q - (f : ℚ)
  if r < 1 / 2 then f
  else if 1 / 2 < r then f + 1
  else if f % 2 = 0 then f else f + 1

/-- The multiple of the unit in the last place nearest to `x`, ties to even; the unit is that
of the binade of `x`, and that of the subnormal numbers below the normal range. -/
def Format.round_unbounded (F : Format) (x : ℚ) : ℚ :=
  if x = 0 then 0
  else
    let e := max (floor_log2 |x| - ((F.prec : Int) - 1)) F.emin
    (round_half_even (x / two_pow e) : ℚ) * two_pow e

/-- The rounding of an exact result to the format; `none` when it overflows the finite
numbers of the format. -/
def Format.round (F : Format) (x : ℚ) : Option ℚ :=
  let y := F.round_unbounded x
  if |y| < two_pow (F.emax + 1) then some y else none

/-- Source: `a + b` on two numbers of the format. -/
def Format.add (F : Format) (a b : ℚ) : Option ℚ := F.round (a + b)

/-- Source: `a - b` on two numbers of the format. -/
def Format.sub (F : Format) (a b : ℚ) : Option ℚ := F.round (a - b)

/-- Source: `a * b` on two numbers of the format. -/
def Format.mul (F : Format) (a b : ℚ) : Option ℚ := F.round (a * b)

/-- Source: `a / b` on two numbers of the format. -/
def Format.div (F : Format) (a b : ℚ) : Option ℚ := if b = 0 then none else F.round (a / b)

end IEEE

namespace AABB

namespace Tree_vs_naive

/-- The literal `1e-6`, of type `double`: the binary64 number nearest to one millionth. -/
def literal_1e_6 : Option ℚ := IEEE.binary64.round (1 / 1000000)

/-- Source: `const FT epsilon = (FT)1e-6;`: the literal converted to `FT`. The kernels of
`test_kernels` have `FT` = `float` or `double`; `FT` is given by its format. -/
def epsilon (FT : IEEE.Format) : Option ℚ :=
  match literal_1e_6 with
  | none => none
  | some literal => FT.round literal

/-- The two assertions that end `Closest_point::operator()`, on the squared distances
`dist_naive` and `dist_tree` (numbers of `FT`):
`assert((dist_naive - dist_tree) <= (epsilon * dist_tree));`
`assert((dist_naive - dist_tree) >= (-1. * epsilon * dist_tree));`
The first one is made in `FT`. In the second one `-1.` is a `double`, so both products are
made in `double`, and the difference (made in `FT`) is compared as a `double`, which it is
without rounding. `some true`: both assertions hold; `some false`: one fails. -/
def Closest_point_check (FT : IEEE.Format) (dist_naive dist_tree : ℚ) : Option Bool :=
  match epsilon FT with
  | none => none
  | some epsilon =>
    match FT.sub dist_naive dist_tree, FT.mul epsilon dist_tree with
    | some diff, some upper =>
      if diff ≤ upper then
        match IEEE.binary64.mul (-1) epsilon with
        | none => none
        | some minus_epsilon =>
          match IEEE.binary64.mul minus_epsilon dist_tree with
          | none => none
          | some lower => some (decide (diff ≥ lower))
      else some false
    | _, _ => none

/-- Source: `Tree_vs_naive::Closest_point::operator()`: `some true` when no assertion fails,
the one of `Naive_implementations::closest_point` included. `squared_distance` is the
kernel's `CGAL::squared_distance`, whose values are numbers of `FT`. -/
def Closest_point {Query Pr Id Point Obj : Type} (FT : IEEE.Format)
    (T : Traits Query Pr Id Point Obj)
    (squared_distance : Point → Point → ℚ) (query : Point) (p : List Pr)
    (tree : Tree Query Id Point Obj) : Option Bool :=
  match Naive_implementations.closest_point T query p with
  | none => some false
  | some point_naive =>
    let point_tree := tree.closest_point query
    let dist_naive := squared_distance query point_naive
    let dist_tree := squared_distance query point_tree
    Closest_point_check FT dist_naive dist_tree

/-- The comparison made by `Closest_point_and_primitive::operator()` on the two results
`point_naive` and `point_tree`: same id, the points are asserted equal; different ids,
`assert((dist_naive - dist_tree) <= (epsilon * dist_tree));`
`assert((dist_naive - dist_tree) >= (-1 * epsilon * dist_tree));`
Here `-1` is an `int`, so every operation is made in `FT`. -/
def Closest_point_and_primitive_check {Id Point : Type} [DecidableEq Id] [DecidableEq Point]
    (FT : IEEE.Format) (squared_distance : Point → Point → ℚ) (query : Point)
    (point_naive point_tree : Point × Id) : Option Bool :=
  if point_naive.2 = point_tree.2 then
    if point_naive.1 = point_tree.1 then some true else some false
  else
    let dist_naive := squared_distance query point_naive.1
    let dist_tree := squared_distance query point_tree.1
    match epsilon FT with
    | none => none
    | some epsilon =>
      match FT.sub dist_naive dist_tree, FT.mul epsilon dist_tree with
      | some diff, some upper =>
        if diff ≤ upper then
          match FT.mul (-1) epsilon with
          | none => none
          | some minus_epsilon =>
            match FT.mul minus_epsilon dist_tree with
            | none => none
            | some lower => some (decide (diff ≥ lower))
        else some false
      | _, _ => none

/-- Source: `Tree_vs_naive::Closest_point_and_primitive::operator()`: `some true` when no
assertion fails, the one of `Naive_implementations::closest_point_and_primitive` included. -/
def Closest_point_and_primitive {Query Pr Id Point Obj : Type} [DecidableEq Id]
    [DecidableEq Point] (FT : IEEE.Format) (T : Traits Query Pr Id Point Obj)
    (squared_distance : Point → Point → ℚ) (query : Point) (p : List Pr)
    (tree : Tree Query Id Point Obj) : Option Bool :=
  match Naive_implementations.closest_point_and_primitive T query p with
  | none => some false
  | some point_naive =>
    Closest_point_and_primitive_check FT squared_distance query point_naive
      (tree.closest_point_and_primitive query)

end Tree_vs_naive

namespace Example

/-- A squared distance for points whose coordinates are numbers of `FT`: the sum of the
squares of the three coordinate differences, each operation rounded to `FT` (0 stands for a
result that overflows). -/
def squared_distance (FT : IEEE.Format) (p q : ℚ × ℚ × ℚ) : ℚ :=
  match FT.sub p.1 q.1, FT.sub p.2.1 q.2.1, FT.sub p.2.2 q.2.2 with
  | some dx, some dy, some dz =>
    match FT.mul dx dx, FT.mul dy dy, FT.mul dz dz with
    | some xx, some yy, some zz =>
      match FT.add xx yy with
      | some s => (FT.add s zz).getD 0
      | none => 0
    | _, _, _ => 0
  | _, _, _ => 0

end Example

end AABB

/-! ## Meshes, the Embree bounds callback and `Polygon_mesh_processing/measure.h`

A mesh is seen through the graph functions the sources call:
* a vertex descriptor is its index (`get(vim, v) = v`), `get(vpm, v)` is `points[v]`;
* a face descriptor is its index, and `faces[f]` lists `vertices_around_face(halfedge(f, m), m)`,
  i.e. the targets of `halfedge(f)`, `next(halfedge(f))`, ... in this order.
An index out of range (undefined behaviour in the source) makes a function return `none`.
Number types are exact: `FT` is `ℚ`. The fields of Embree's `RTCBounds` are of type
`float`: an assignment to one of them rounds to the nearest number of `float`.
-/

namespace CGAL

/-- The kernel's `Point_3` (also used for `Vector_3`), with exact coordinates. -/
structure Point_3 where
  x : ℚ
  y : ℚ
  z : ℚ
deriving DecidableEq

/-- A face-vertex view of a `PolygonMesh` / `TriangleMesh` with its vertex point map. -/
structure PolygonMesh (Point : Type) where
  /-- The point of each vertex: `get(vpm, v)` -/
  points : List Point
  /-- The vertices around each face: `vertices_around_face(halfedge(f, m), m)` -/
  faces : List (List Nat)

/-- The loop `for (hi : halfedges_around_face(hf, mesh)) FacePoints.push_back(point(target(hi)))`;
the second argument is the vector filled so far. -/
def collect_face_points {Point : Type} (m : PolygonMesh Point) :
    List Nat → List Point → Option (List Point)
  | [], FacePoints => some FacePoints
  | vi :: rest, FacePoints =>
    match m.points[vi]? with
    | none => none
    | some data => collect_face_points m rest (FacePoints ++ [data])

namespace Embree

/-- Embree's `RTCBounds`: six fields of type `float`, each held as the number it denotes. -/
structure RTCBounds where
  lower_x : ℚ
  lower_y : ℚ
  lower_z : ℚ
  upper_x : ℚ
  upper_y : ℚ
  upper_z : ℚ
deriving DecidableEq

/-- Source: `std::min({a, b, c})`. -/
def std_min (a b c : ℚ) : ℚ := min (min a b) c

/-- Source: `std::max({a, b, c})`. -/
def std_max (a b c : ℚ) : ℚ := max (max a b) c

/-- The conversion made by the assignment of a coordinate (a number of the kernel's `FT`,
`double` for the usual kernels) to a `float` field of `RTCBounds`: to the nearest `float`. -/
def to_float (x : ℚ) : Option ℚ := IEEE.binary32.round x

/-- Source: `Triangle_mesh_geometry::bound_function`, on `self->surfaceMesh` and `args->primID`;
the result is what is written to `args->bounds_o`. `none`: an index out of range, or a
coordinate beyond the range of `float`. -/
def bound_function (surfaceMesh : PolygonMesh Point_3) (primID : Nat) : Option RTCBounds :=
  match surfaceMesh.faces[primID]? with
  | none => none
  | some vs =>
    match collect_face_points surfaceMesh vs [] with
    | some (p0 :: p1 :: p2 :: _) =>
      match to_float (std_min p0.x p1.x p2.x), to_float (std_min p0.y p1.y p2.y),
          to_float (std_min p0.z p1.z p2.z), to_float (std_max p0.x p1.x p2.x),
          to_float (std_max p0.y p1.y p2.y), to_float (std_max p0.z p1.z p2.z) with
      | some lower_x, some lower_y, some lower_z, some upper_x, some upper_y, some upper_z =>
        some { lower_x := lower_x
               lower_y := lower_y
               lower_z := lower_z
               upper_x := upper_x
               upper_y := upper_y
               upper_z := upper_z }
      | _, _, _, _, _, _ => none
    | _ => none

/-- A point lies inside the box (boundary included). -/
def RTCBounds.contains (b : RTCBounds) (p : Point_3) : Prop :=
  b.lower_x ≤ p.x ∧ p.x ≤ b.upper_x ∧ b.lower_y ≤ p.y ∧ p.y ≤ b.upper_y
    ∧ b.lower_z ≤ p.z ∧ p.z ≤ b.upper_z

/-- The volume of the box. -/
def RTCBounds.volume (b : RTCBounds) : ℚ :=
  (b.upper_x - b.lower_x) * (b.upper_y - b.lower_y) * (b.upper_z - b.lower_z)

/-- The convex combination `a0 v0 + a1 v1 + a2 v2` of three points. -/
def combination (a0 a1 a2 : ℚ) (v0 v1 v2 : Point_3) : Point_3 :=
  ⟨a0 * v0.x + a1 * v1.x + a2 * v2.x, a0 * v0.y + a1 * v1.y + a2 * v2.y,
   a0 * v0.z + a1 * v1.z + a2 * v2.z⟩

/-- The three coordinates of a point are numbers of `float`. -/
def float_point (p : Point_3) : Prop :=
  to_float p.x = some p.x ∧ to_float p.y = some p.y ∧ to_float p.z = some p.z

end Embree

namespace Example

/-- One triangle with vertices (0,0,0), (4,0,2), (0,6,-2). -/
def oneTriangle : PolygonMesh Point_3 :=
  { points := [⟨0, 0, 0⟩, ⟨4, 0, 2⟩, ⟨0, 6, -2⟩], faces := [[0, 1, 2]] }

/-- One degenerate triangle whose three vertices lie at (1,2,3). -/
def pointTriangle : PolygonMesh Point_3 :=
  { points := [⟨1, 2, 3⟩, ⟨1, 2, 3⟩, ⟨1, 2, 3⟩], faces := [[0, 1, 2]] }

/-- One triangle with vertices (16777217, 0, -16777217), (0, 0, 0), (0, 1, 0); the
coordinates are numbers of `double`, and 16777217 = 2^24 + 1 is not a number of `float`. -/
def farTriangle : PolygonMesh Point_3 :=
  { points := [⟨16777217, 0, -16777217⟩, ⟨0, 0, 0⟩, ⟨0, 1, 0⟩], faces := [[0, 1, 2]] }

end Example

end CGAL

namespace CGAL

namespace Polygon_mesh_processing

namespace pmp_internal

/-- The loop of `std::min_element` after its first element: `i` is the position of the next
element, `smallest` the position of the smallest element so far and `sv` its value; a later
element replaces it only when strictly smaller. -/
def min_element_loop : List Nat → Nat → Nat → Nat → Nat
  | [], _, smallest, _ => smallest
  | x :: rest, i, smallest, sv =>
    if x < sv then min_element_loop rest (i + 1) i x
    else min_element_loop rest (i + 1) smallest sv

/-- Source: `std::min_element(ids.begin(), ids.end())`, as the offset of the returned iterator
from `ids.begin()`: the position of the first smallest element (`end` for an empty range). -/
def min_element : List Nat → Nat
  | [] => 0
  | x :: rest => min_element_loop rest 1 0 x

/-- Source: `pmp_internal::rearrange_face_ids`. `std::sort` on `std::size_t` values is the
ascending arrangement; `std::rotate(first, middle, last)` is the left rotation that brings
`middle` to the front. -/
def rearrange_face_ids (ids : List Nat) (orientation_counts : Bool) : List Nat :=
  if !orientation_counts then
    ids.insertionSort (fun a b => a ≤ b)
  else
    ids.rotate (min_element ids)

end pmp_internal

/-- Source: `std::map::find`, on a map kept as the list of its entries: the mapped value of
the entry with the given key, `none` for `end()`. -/
def map_find {K V : Type} [DecidableEq K] : List (K × V) → K → Option V
  | [], _ => none
  | (k, v) :: rest, key => if k = key then some v else map_find rest key

/-- Source: `std::map::insert(std::make_pair(k, v))`: nothing is inserted when the key is
already present. Returns `res.first->second`, `res.second` and the map after the call. -/
def map_insert {K V : Type} [DecidableEq K] (m : List (K × V)) (k : K) (v : V) :
    V × Bool × List (K × V) :=
  match map_find m k with
  | some v0 => (v0, false, m)
  | none => (v, true, m ++ [(k, v)])

/-- Source: `std::map::erase(it)` for the iterator found for `key`. -/
def map_erase {K V : Type} [DecidableEq K] (m : List (K × V)) (key : K) : List (K × V) :=
  m.filter (fun e => decide (e.1 ≠ key))

/-- Iteration over a `std::map` whose keys are `small_vector<std::size_t, 4>`: the entries in
increasing lexicographic order of their keys. -/
def map_in_key_order {V : Type} (m : List (List Nat × V)) : List (List Nat × V) :=
  m.insertionSort (fun a b => a.1 ≤ b.1)

/-- The loop over `vertices(m1)` of `compare_meshes`; `v` is the index of the next vertex,
the state is `(point_id_map, id, m1_vertex_id)`, the vector being the function of its
indices. -/
def assign_m1_ids {Point : Type} [DecidableEq Point] :
    List Point → Nat → List (Point × Nat) × Nat × (Nat → Nat) →
      List (Point × Nat) × Nat × (Nat → Nat)
  | [], _, st => st
  | p :: rest, v, (point_id_map, id, m1_vertex_id) =>
    let res := map_insert point_id_map p id
    assign_m1_ids rest (v + 1)
      (res.2.2, (if res.2.1 then id + 1 else id),
       fun i => if i = v then res.1 else m1_vertex_id i)

/-- The loop over `vertices(m2)` of `compare_meshes`; the state is
`(point_id_map, id, m2_vertex_id, shared_vertices)`, the bitset being its test function. -/
def assign_m2_ids {Point : Type} [DecidableEq Point] :
    List Point → Nat → List (Point × Nat) × Nat × (Nat → Nat) × (Nat → Bool) →
      List (Point × Nat) × Nat × (Nat → Nat) × (Nat → Bool)
  | [], _, st => st
  | p :: rest, v, (point_id_map, id, m2_vertex_id, shared_vertices) =>
    let res := map_insert point_id_map p id
    assign_m2_ids rest (v + 1)
      (res.2.2, (if res.2.1 then id + 1 else id),
       (fun i => if i = v then res.1 else m2_vertex_id i),
       (if res.2.1 then shared_vertices
        else fun i => if i = res.1 then true else shared_vertices i))

/-- The loop over `vertices_around_face(halfedge(f, m), m)` with its `break`; returns `ids`
and `all_shared`. -/
def collect_face_ids (vertex_id : Nat → Nat) (shared_vertices : Nat → Bool) :
    List Nat → List Nat → List Nat × Bool
  | [], ids => (ids, true)
  | v :: rest, ids =>
    let vid := vertex_id v
    if !shared_vertices vid then (ids ++ [vid], false)
    else collect_face_ids vertex_id shared_vertices rest (ids ++ [vid])

/-- The loop over `faces(m1)`; `f` is the index of the next face, the state is
`(m1_faces_map, m1_only)`. -/
def m1_faces_loop (same_orientation : Bool) (m1_vertex_id : Nat → Nat)
    (shared_vertices : Nat → Bool) :
    List (List Nat) → Nat → List (List Nat × Nat) × List Nat → List (List Nat × Nat) × List Nat
  | [], _, st => st
  | vs :: rest, f, (m1_faces_map, m1_only) =>
    let r := collect_face_ids m1_vertex_id shared_vertices vs []
    if r.2 then
      m1_faces_loop same_orientation m1_vertex_id shared_vertices rest (f + 1)
        ((map_insert m1_faces_map (pmp_internal.rearrange_face_ids r.1 same_orientation) f).2.2,
         m1_only)
    else
      m1_faces_loop same_orientation m1_vertex_id shared_vertices rest (f + 1)
        (m1_faces_map, m1_only ++ [f])

/-- The loop over `faces(m2)`; the state is `(m1_faces_map, common, m2_only)`. -/
def m2_faces_loop (same_orientation : Bool) (m2_vertex_id : Nat → Nat)
    (shared_vertices : Nat → Bool) :
    List (List Nat) → Nat → List (List Nat × Nat) × List (Nat × Nat) × List Nat →
      List (List Nat × Nat) × List (Nat × Nat) × List Nat
  | [], _, st => st
  | vs :: rest, f, (m1_faces_map, common, m2_only) =>
    let r := collect_face_ids m2_vertex_id shared_vertices vs []
    if r.2 then
      let ids := pmp_internal.rearrange_face_ids r.1 same_orientation
      match map_find m1_faces_map ids with
      | some f1 =>
        m2_faces_loop same_orientation m2_vertex_id shared_vertices rest (f + 1)
          (map_erase m1_faces_map ids, common ++ [(f1, f)], m2_only)
      | none =>
        m2_faces_loop same_orientation m2_vertex_id shared_vertices rest (f + 1)
          (m1_faces_map, common, m2_only ++ [f])
    else
      m2_faces_loop same_orientation m2_vertex_id shared_vertices rest (f + 1)
        (m1_faces_map, common, m2_only ++ [f])

/-- What `compare_meshes` has written to its three output iterators. -/
structure Compare_meshes_output where
  common : List (Nat × Nat)
  m1_only : List Nat
  m2_only : List Nat
deriving DecidableEq, Repr

/-- Source: `compare_meshes(m1, m2, common, m1_only, m2_only, np1, np2)`, with
`same_orientation` the value of the parameter `require_same_orientation`. -/
def compare_meshes {Point : Type} [DecidableEq Point] (m1 m2 : PolygonMesh Point)
    (same_orientation : Bool) : Compare_meshes_output :=
  let s1 := assign_m1_ids m1.points 0 ([], 0, fun _ => 2 ^ 64 - 1)
  let s2 := assign_m2_ids m2.points 0 (s1.1, s1.2.1, (fun _ => 2 ^ 64 - 1), fun _ => false)
  let m1_vertex_id := s1.2.2
  let m2_vertex_id := s2.2.2.1
  let shared_vertices := s2.2.2.2
  let t1 := m1_faces_loop same_orientation m1_vertex_id shared_vertices m1.faces 0 ([], [])
  let t2 := m2_faces_loop same_orientation m2_vertex_id shared_vertices m2.faces 0
    (t1.1, [], [])
  { common := t2.2.1
    m1_only := t1.2 ++ (map_in_key_order t2.1).map Prod.snd
    m2_only := t2.2.2 }

end Polygon_mesh_processing

namespace Example

/-- Two separate triangles lying on the same three points (six vertices). -/
def doubledTriangle : PolygonMesh (Int × Int × Int) :=
  { points := [(0, 0, 0), (1, 0, 0), (0, 1, 0), (0, 0, 0), (1, 0, 0), (0, 1, 0)]
    faces := [[0, 1, 2], [3, 4, 5]] }

/-- One triangle on the points of `doubledTriangle`. -/
def singleTriangle : PolygonMesh (Int × Int × Int) :=
  { points := [(0, 0, 0), (1, 0, 0), (0, 1, 0)], faces := [[0, 1, 2]] }

/-- A square cut into two triangles. -/
def squareA : PolygonMesh (Int × Int × Int) :=
  { points := [(0, 0, 0), (1, 0, 0), (1, 1, 0), (0, 1, 0)], faces := [[0, 1, 2], [0, 2, 3]] }

/-- The same square with another vertex numbering, its second triangle reversed, and one
more triangle above it. -/
def squareB : PolygonMesh (Int × Int × Int) :=
  { points := [(1, 1, 0), (0, 0, 0), (1, 0, 0), (0, 1, 0), (0, 0, 1)]
    faces := [[2, 0, 1], [1, 3, 0], [1, 2, 4]] }

end Example

end CGAL

namespace CGAL

/-- The points of the vertices around face `f`, in the order of `vertices_around_face`. -/
def face_points {Point : Type} (m : PolygonMesh Point) (f : Nat) : Option (List Point) :=
  match m.faces[f]? with
  | none => none
  | some vs => collect_face_points m vs []

/-- Every vertex descriptor used by a face is a vertex of the mesh. -/
def PolygonMesh.well_formed {Point : Type} (m : PolygonMesh Point) : Prop :=
  ∀ vs ∈ m.faces, ∀ v ∈ vs, v < m.points.length

end CGAL

namespace CGAL

/-- A halfedge view of a `PolygonMesh` for `longest_border`: the range `halfedges(pmesh)`,
the predicate `is_border(h, pmesh)`, the range `halfedges_around_face(h, pmesh)` (the cycle
`h, next(h), next(next(h)), ...` back to `h`) and `edge_length(h, pmesh, np)` taken as an
exact number. These graph functions are parameters of the embedding. -/
structure HalfedgeGraph (H : Type) where
  halfedges : List H
  is_border : H → Bool
  halfedges_around_face : H → List H
  edge_length : H → ℚ

namespace Polygon_mesh_processing

/-- The inner loop of `longest_border` over `halfedges_around_face(h, pmesh)`; the state is
`(len, visited)`. -/
def border_cycle_loop {H : Type} [DecidableEq H] (pmesh : HalfedgeGraph H) :
    List H → ℚ × List H → ℚ × List H
  | [], st => st
  | haf :: rest, (len, visited) =>
    border_cycle_loop pmesh rest (len + pmesh.edge_length haf, List.insert haf visited)

/-- The outer loop of `longest_border` over `halfedges(pmesh)`; the state is
`(visited, result_halfedge, result_len)`, `none` being `null_halfedge()`. -/
def longest_border_loop {H : Type} [DecidableEq H] (pmesh : HalfedgeGraph H) :
    List H → List H × Option H × ℚ → List H × Option H × ℚ
  | [], st => st
  | h :: rest, (visited, result_halfedge, result_len) =>
    if h ∉ visited then
      if pmesh.is_border h then
        let r := border_cycle_loop pmesh (pmesh.halfedges_around_face h) (0, visited)
        if result_len < r.1 then
          longest_border_loop pmesh rest (r.2, some h, r.1)
        else
          longest_border_loop pmesh rest (r.2, result_halfedge, result_len)
      else longest_border_loop pmesh rest (visited, result_halfedge, result_len)
    else longest_border_loop pmesh rest (visited, result_halfedge, result_len)

/-- Source: `longest_border(pmesh, np)`: the pair `(result_halfedge, result_len)`. -/
def longest_border {H : Type} [DecidableEq H] (pmesh : HalfedgeGraph H) : Option H × ℚ :=
  let r := longest_border_loop pmesh pmesh.halfedges ([], none, 0)
  (r.2.1, r.2.2)

/-- The length of the cycle of `h`: the sum of the edge lengths along
`halfedges_around_face(h, pmesh)`. -/
def cycle_length {H : Type} (pmesh : HalfedgeGraph H) (h : H) : ℚ :=
  ((pmesh.halfedges_around_face h).map pmesh.edge_length).sum

end Polygon_mesh_processing

namespace Example

/-- The cycle of a halfedge of a single triangle: halfedges 0, 1, 2 go around the face,
halfedges 3, 4, 5 are their opposites and go around the border. -/
def triangleCycle (h : Nat) : List Nat :=
  if h = 0 then [0, 1, 2] else if h = 1 then [1, 2, 0] else if h = 2 then [2, 0, 1]
  else if h = 3 then [3, 5, 4] else if h = 4 then [4, 3, 5] else [5, 4, 3]

/-- A single triangle whose three vertices lie at the same point: every edge has length 0. -/
def collapsedTriangle : HalfedgeGraph Nat :=
  { halfedges := [0, 1, 2, 3, 4, 5]
    is_border := fun h => decide (3 ≤ h)
    halfedges_around_face := triangleCycle
    edge_length := fun _ => 0 }

/-- A single triangle with edge lengths 3, 4 and 5. -/
def rightTriangle : HalfedgeGraph Nat :=
  { halfedges := [0, 1, 2, 3, 4, 5]
    is_border := fun h => decide (3 ≤ h)
    halfedges_around_face := triangleCycle
    edge_length := fun h => if h = 0 ∨ h = 3 then 3 else if h = 1 ∨ h = 4 then 4 else 5 }

end Example

end CGAL

namespace CGAL

namespace Kernel

/-- Modelled from the spec: the kernel's `ORIGIN` / `Point_3 origin(0, 0, 0)` and
`NULL_VECTOR` are not among the sources; the point and the vector with coordinates 0. -/
def ORIGIN : Point_3 := ⟨0, 0, 0⟩

/-- Modelled from the spec: the kernel functor `Construct_vector_3` is not among the sources;
`vector(p, q)` is the vector `q - p`. -/
def Construct_vector_3 (p q : Point_3) : Point_3 := ⟨q.x - p.x, q.y - p.y, q.z - p.z⟩

/-- Modelled from the spec: the kernel functor `Construct_sum_of_vectors_3` is not among the
sources; the componentwise sum. -/
def Construct_sum_of_vectors_3 (v w : Point_3) : Point_3 := ⟨v.x + w.x, v.y + w.y, v.z + w.z⟩

/-- Modelled from the spec: the kernel functor `Construct_scaled_vector_3` is not among the
sources; the vector multiplied by the scalar. -/
def Construct_scaled_vector_3 (v : Point_3) (s : ℚ) : Point_3 := ⟨v.x * s, v.y * s, v.z * s⟩

/-- Modelled from the spec: the kernel functor `Compute_scalar_product_3` is not among the
sources; the dot product. -/
def Compute_scalar_product_3 (v w : Point_3) : ℚ := v.x * w.x + v.y * w.y + v.z * w.z

/-- Modelled from the spec: the kernel functor `Construct_translated_point_3` is not among
the sources; the point `p + v`. -/
def Construct_translated_point_3 (p v : Point_3) : Point_3 := ⟨p.x + v.x, p.y + v.y, p.z + v.z⟩

/-- The cross product of two vectors. -/
def cross_product (v w : Point_3) : Point_3 :=
  ⟨v.y * w.z - v.z * w.y, v.z * w.x - v.x * w.z, v.x * w.y - v.y * w.x⟩

/-- Modelled from the spec: the kernel functor `Construct_normal_3` is not among the sources;
`normal(p, q, r)` is the cross product `(q - p) × (r - p)`, not normalised. -/
def Construct_normal_3 (p q r : Point_3) : Point_3 :=
  cross_product (Construct_vector_3 p q) (Construct_vector_3 p r)

/-- The determinant of the matrix whose rows are the three vectors. -/
def determinant (u v w : Point_3) : ℚ :=
  u.x * (v.y * w.z - v.z * w.y) - u.y * (v.x * w.z - v.z * w.x) + u.z * (v.x * w.y - v.y * w.x)

/-- Modelled from the spec: the kernel functor `Compute_volume_3` is not among the sources;
`cv3(p, q, r, s)` is the signed volume of the tetrahedron `pqrs`,
`determinant(q - p, r - p, s - p) / 6`. -/
def Compute_volume_3 (p q r s : Point_3) : ℚ :=
  determinant (Construct_vector_3 p q) (Construct_vector_3 p r) (Construct_vector_3 p s) / 6

/-- Source: `CGAL::square`. -/
def square (a : ℚ) : ℚ := a * a

end Kernel

namespace Polygon_mesh_processing

open Kernel

/-- The directed edges of a face: each vertex around the face with the next one. -/
def face_edges (vs : List Nat) : List (Nat × Nat) := vs.zip (vs.rotate 1)

/-- Modelled from the spec: the graph helper `is_triangle_mesh` is not among the sources;
every face has three vertices around it. -/
def is_triangle_mesh {Point : Type} (tmesh : PolygonMesh Point) : Bool :=
  tmesh.faces.all (fun vs => decide (vs.length = 3))

/-- Modelled from the spec: the graph helper `is_closed` is not among the sources; a mesh is
closed (`@pre tmesh is closed`) when it has no border halfedge, i.e. the opposite of every
directed edge of a face is a directed edge of a face. -/
def is_closed {Point : Type} (tmesh : PolygonMesh Point) : Bool :=
  tmesh.faces.all (fun vs => (face_edges vs).all (fun e =>
    tmesh.faces.any (fun ws => decide ((e.2, e.1) ∈ face_edges ws))))

/-- The three points read by `volume` and `centroid` for a face:
`get(vpm, target(halfedge(f)))`, `get(vpm, target(next(halfedge(f))))` and
`get(vpm, target(prev(halfedge(f))))`, i.e. the points of the first, second and last vertex
around the face. -/
def face_corners (tmesh : PolygonMesh Point_3) (vs : List Nat) :
    Option (Point_3 × Point_3 × Point_3) :=
  match vs[0]?, vs[1]?, vs.getLast? with
  | some a, some b, some c =>
    match tmesh.points[a]?, tmesh.points[b]?, tmesh.points[c]? with
    | some p, some q, some r => some (p, q, r)
    | _, _, _ => none
  | _, _, _ => none

/-- The loop of `volume` over `faces(tmesh)`; the second argument is the variable `volume`. -/
def volume_loop (tmesh : PolygonMesh Point_3) : List (List Nat) → ℚ → Option ℚ
  | [], volume => some volume
  | vs :: rest, volume =>
    match face_corners tmesh vs with
    | none => none
    | some (p, q, r) => volume_loop tmesh rest (volume + Compute_volume_3 ORIGIN p q r)

/-- Source: `volume(tmesh, np)`; `none` when one of the two assertions fails. -/
def volume (tmesh : PolygonMesh Point_3) : Option ℚ :=
  if is_triangle_mesh tmesh then
    if is_closed tmesh then volume_loop tmesh tmesh.faces 0 else none
  else none

/-- The body of the loop of `centroid` for a face with corner points `p`, `q`, `r`, on the
state `(volume, centroid)`. -/
def centroid_face_step (p q r : Point_3) (st : ℚ × Point_3) : ℚ × Point_3 :=
  let vp := Construct_vector_3 ORIGIN p
  let vq := Construct_vector_3 ORIGIN q
  let vr := Construct_vector_3 ORIGIN r
  let n := Construct_normal_3 p q r
  let volume := st.1 + Compute_scalar_product_3 n vp / 6
  let n1 := Construct_scaled_vector_3 n (1 / 24)
  let v2 := Construct_sum_of_vectors_3 vp vq
  let v3 : Point_3 := ⟨square v2.x, square v2.y, square v2.z⟩
  let v2a := Construct_sum_of_vectors_3 vq vr
  let v3a := Construct_sum_of_vectors_3 v3 ⟨square v2a.x, square v2a.y, square v2a.z⟩
  let v2b := Construct_sum_of_vectors_3 vp vr
  let v3b := Construct_sum_of_vectors_3 v3a ⟨square v2b.x, square v2b.y, square v2b.z⟩
  (volume, Construct_sum_of_vectors_3 st.2 ⟨n1.x * v3b.x, n1.y * v3b.y, n1.z * v3b.z⟩)

/-- The loop of `centroid` over `faces(tmesh)`; the state is `(volume, centroid)`. -/
def centroid_loop (tmesh : PolygonMesh Point_3) :
    List (List Nat) → ℚ × Point_3 → Option (ℚ × Point_3)
  | [], st => some st
  | vs :: rest, st =>
    match face_corners tmesh vs with
    | none => none
    | some (p, q, r) => centroid_loop tmesh rest (centroid_face_step p q r st)

/-- Source: `centroid(tmesh, np)`; `none` when one of the two assertions fails. The final
scaling divides by `2 * volume`. -/
def centroid (tmesh : PolygonMesh Point_3) : Option Point_3 :=
  if is_triangle_mesh tmesh then
    if is_closed tmesh then
      match centroid_loop tmesh tmesh.faces (0, ORIGIN) with
      | none => none
      | some (volume, centroid) =>
        some (Construct_translated_point_3 ORIGIN
          (Construct_scaled_vector_3 centroid (1 / (2 * volume))))
    else none
  else none

end Polygon_mesh_processing

namespace Example

open Kernel

/-- The closed triangle mesh of the tetrahedron `p0 p1 p2 p3`; its faces are oriented
outward when `determinant(p1 - p0, p2 - p0, p3 - p0)` is positive. -/
def tetrahedron (p0 p1 p2 p3 : Point_3) : PolygonMesh Point_3 :=
  { points := [p0, p1, p2, p3], faces := [[0, 2, 1], [0, 1, 3], [1, 2, 3], [0, 3, 2]] }

/-- The same tetrahedron with every face reversed; its faces are oriented outward when
`determinant(p1 - p0, p2 - p0, p3 - p0)` is negative. -/
def tetrahedron_reversed (p0 p1 p2 p3 : Point_3) : PolygonMesh Point_3 :=
  { points := [p0, p1, p2, p3], faces := [[0, 1, 2], [0, 3, 1], [1, 3, 2], [0, 2, 3]] }

/-- The orientation determinant of four points. -/
def orientation_det (p0 p1 p2 p3 : Point_3) : ℚ :=
  determinant (Construct_vector_3 p0 p1) (Construct_vector_3 p0 p2) (Construct_vector_3 p0 p3)

/-- The triangle `a b c` is seen counterclockwise from outside a solid that has the point
`d` inside or on its boundary: `d` is not on the positive side of the triangle. -/
def outward_face (a b c d : Point_3) : Prop := orientation_det a b c d ≤ 0

/-- The tetrahedron mesh with outward-oriented faces. -/
def outward_tetrahedron (p0 p1 p2 p3 : Point_3) : PolygonMesh Point_3 :=
  if 0 ≤ orientation_det p0 p1 p2 p3 then tetrahedron p0 p1 p2 p3
  else tetrahedron_reversed p0 p1 p2 p3

end Example

end CGAL

namespace CGAL

namespace Example

/-- Every face of the mesh is oriented outward with respect to every vertex of the mesh. -/
def faces_outward (m : PolygonMesh Point_3) : Prop :=
  ∀ vs ∈ m.faces, ∀ a b c, Polygon_mesh_processing.face_corners m vs = some (a, b, c) →
    ∀ d ∈ m.points, outward_face a b c d

end Example

end CGAL

/-! ## Random query points of the harness, the critical-point accessors, the ray-box test
and the Embree tree -/

namespace AABB

/-- The six numbers of a `CGAL::Bbox_3`, of type `double`, each held as the number it
denotes. -/
structure Bbox_3 where
  xmin : ℚ
  ymin : ℚ
  zmin : ℚ
  xmax : ℚ
  ymax : ℚ
  zmax : ℚ

/-- A point lies inside the box (boundary included). -/
def Bbox_3.contains (bbox : Bbox_3) (p : CGAL.Point_3) : Prop :=
  bbox.xmin ≤ p.x ∧ p.x ≤ bbox.xmax ∧ bbox.ymin ≤ p.y ∧ p.y ≤ bbox.ymax
    ∧ bbox.zmin ≤ p.z ∧ p.z ≤ bbox.zmax

/-- Source: `random_in(a, b)`: `double r = rand() / (double)RAND_MAX; return a + (b - a) * r;`.
The outcome of the call of `rand()` and the constant `RAND_MAX` of the C library are
arguments; `a` and `b` are numbers of `double` and every operation is made in `double`. -/
def random_in (RAND_MAX rand : Nat) (a b : ℚ) : Option ℚ :=
  match IEEE.binary64.round (rand : ℚ), IEEE.binary64.round (RAND_MAX : ℚ) with
  | some numerator, some denominator =>
    match IEEE.binary64.div numerator denominator with
    | none => none
    | some r =>
      match IEEE.binary64.sub b a with
      | none => none
      | some width =>
        match IEEE.binary64.mul width r with
        | none => none
        | some offset => IEEE.binary64.add a offset
  | _, _ => none

namespace Example

/-- The box [-0.1, 0.2] x [0, 1] x [0, 1]: `xmin` and `xmax` are the numbers of `double`
written `-0.1` and `0.2`. -/
def narrowBox : Bbox_3 :=
  { xmin := -3602879701896397 / 36028797018963968, ymin := 0, zmin := 0
    xmax := 3602879701896397 / 18014398509481984, ymax := 1, zmax := 1 }

end Example

end AABB

namespace CGAL

namespace Algebraic_curve_kernel_2

/-- The conversion of an `int` to `std::size_t` (64 bits) made by the comparison
`i < x_points.size()` and by the subscript `x_points[i]`. -/
def to_size_t (i : Int) : Nat := (i % 2 ^ 64).toNat

/-- Source: `X_critical_points_2::operator()(ca, i)`. The enumerating overload
`operator()(ca_2, oi)` is the argument `x_critical_points` (what it writes for a curve
analysis); `none` is the failed `CGAL_precondition(0 >= i&&i < x_points.size())`. -/
def X_critical_points_2_at {Curve_analysis_2 Xy_coordinate_2 : Type}
    (x_critical_points : Curve_analysis_2 → List Xy_coordinate_2) (ca : Curve_analysis_2)
    (i : Int) : Option Xy_coordinate_2 :=
  let x_points := x_critical_points ca
  if 0 ≥ i ∧ to_size_t i < x_points.length then x_points[to_size_t i]? else none

/-- Source: `Y_critical_points_2::operator()(ca, i)`; same body on `y_points`. -/
def Y_critical_points_2_at {Curve_analysis_2 Xy_coordinate_2 : Type}
    (y_critical_points : Curve_analysis_2 → List Xy_coordinate_2) (ca : Curve_analysis_2)
    (i : Int) : Option Xy_coordinate_2 :=
  let y_points := y_critical_points ca
  if 0 ≥ i ∧ to_size_t i < y_points.length then y_points[to_size_t i]? else none

end Algebraic_curve_kernel_2

namespace Embree

/-- The data members of `Triangle_mesh_geometry`: the mesh it points to, and `rtc_geometry`
and `rtc_geomID`, which the constructor leaves unassigned (`none`). -/
structure Triangle_mesh_geometry (TriangleMesh : Type) where
  surfaceMesh : TriangleMesh
  rtc_geometry : Option Nat
  rtc_geomID : Option Nat
deriving DecidableEq

/-- Source: `Triangle_mesh_geometry(const TriangleMesh& tm) : surfaceMesh(&tm) {}`. -/
def Triangle_mesh_geometry.construct {TriangleMesh : Type} (tm : TriangleMesh) :
    Triangle_mesh_geometry TriangleMesh :=
  { surfaceMesh := tm, rtc_geometry := none, rtc_geomID := none }

/-- Source: `Triangle_mesh_geometry::primitive_id(primID)`:
`std::make_pair(Face_index(primID), surfaceMesh)`. -/
def Triangle_mesh_geometry.primitive_id {TriangleMesh : Type}
    (g : Triangle_mesh_geometry TriangleMesh) (primID : Nat) : Nat × TriangleMesh :=
  (primID, g.surfaceMesh)

/-- The data members of the Embree `AABB_tree`. The scene is the list of the geometry
handles attached to it, the handle attached under id `k` at position `k`; `new_handles`
counts the handles created by `rtcNewGeometry`. -/
structure AABB_tree (TriangleMesh : Type) where
  scene : List Nat
  new_handles : Nat
  id2geometry : List (Nat × Triangle_mesh_geometry TriangleMesh)
  geometries : List (Triangle_mesh_geometry TriangleMesh)

/-- Source: `AABB_tree()`: a new device and a new, empty scene. -/
def AABB_tree.construct (TriangleMesh : Type) : AABB_tree TriangleMesh :=
  { scene := [], new_handles := 0, id2geometry := [], geometries := [] }

/-- The local variable `geometry` of `AABB_tree::insert` when the function returns: a copy
of `geometries.back()` to which the new handle and the id returned by `rtcAttachGeometry`
(the next free id of the scene) have been assigned. -/
def AABB_tree.insert_local_geometry {TriangleMesh : Type} (tree : AABB_tree TriangleMesh)
    (t : TriangleMesh) : Triangle_mesh_geometry TriangleMesh :=
  let geometries := tree.geometries ++ [Triangle_mesh_geometry.construct t]
  let geometry := geometries.getLastD (Triangle_mesh_geometry.construct t)
  let geometry := { geometry with rtc_geometry := some tree.new_handles }
  { geometry with rtc_geomID := some tree.scene.length }

/-- Source: `AABB_tree::insert(t)`: `geometries.push_back(Geometry(t))`, then the handle and
the id are assigned to the local copy `Geometry geometry = geometries.back()`, the handle is
attached to the scene and the scene is committed. Neither `id2geometry` nor the element of
`geometries` is written after the `push_back`. -/
def AABB_tree.insert {TriangleMesh : Type} (tree : AABB_tree TriangleMesh) (t : TriangleMesh) :
    AABB_tree TriangleMesh :=
  let geometries := tree.geometries ++ [Triangle_mesh_geometry.construct t]
  let geometry := tree.insert_local_geometry t
  { scene := tree.scene ++ [geometry.rtc_geometry.getD 0]
    new_handles := tree.new_handles + 1
    id2geometry := tree.id2geometry
    geometries := geometries }

/-- The end of `AABB_tree::first_intersected_primitive` for the hit `(geomID, primID)`
reported by `rtcIntersect1`: `RTC_INVALID_GEOMETRY_ID` (here `none`) gives `boost::none`;
otherwise the geometry is looked up in `id2geometry` and its `primitive_id(primID)` is
returned. A key that is absent has no geometry of an inserted mesh to return (`none`). -/
def AABB_tree.primitive_of_hit {TriangleMesh : Type} (tree : AABB_tree TriangleMesh)
    (hit : Option (Nat × Nat)) : Option (Nat × TriangleMesh) :=
  match hit with
  | none => none
  | some (rtc_geomID, primID) =>
    match Polygon_mesh_processing.map_find tree.id2geometry rtc_geomID with
    | none => none
    | some geometry => some (geometry.primitive_id primID)

end Embree

end CGAL

namespace clarified

/-- The `Vector3<T>` of the ray-box experiments: three coordinates. -/
structure Vector3 (T : Type) where
  x : T
  y : T
  z : T

/-- The `BBox<T>` of the experiments, through `bounds()`: `bounds()[0]` is the min corner
and `bounds()[1]` the max corner. The coordinates are numbers of `T`. -/
structure BBox where
  min_corner : Vector3 ℚ
  max_corner : Vector3 ℚ

/-- Source: `bbox.bounds()[i].get()`; an index other than 0 and 1 is out of range (`none`). -/
def BBox.bounds (bbox : BBox) (i : Int) : Option (Vector3 ℚ) :=
  if i = 0 then some bbox.min_corner else if i = 1 then some bbox.max_corner else none

/-- The `Ray<T>` of the experiments: origin, direction, the stored componentwise reciprocal
of the direction and the stored sign indices. The coordinates are numbers of `T`. -/
structure Ray where
  origin : Vector3 ℚ
  direction : Vector3 ℚ
  inv_direction : Vector3 ℚ
  sign : Vector3 Int

/-- One initialiser of `clarified::intersect`, such as
`double xmin = (bbox.bounds()[ray.sign.x].get().x - ray.origin.x) * ray.inv_direction.x;`:
the difference and the product are made in `T`, and the result is stored in a `double`. -/
def slab_bound (T : IEEE.Format) (bound origin inv_direction : ℚ) : Option ℚ :=
  match T.sub bound origin with
  | none => none
  | some difference =>
    match T.mul difference inv_direction with
    | none => none
    | some product => IEEE.binary64.round product

/-- Source: `clarified::intersect(bbox, ray)` for `T` = `float` or `double`, given by its
format; `none` when `bounds()` is indexed out of range or an operation overflows. -/
def intersect (T : IEEE.Format) (bbox : BBox) (ray : Ray) : Option Bool :=
  match bbox.bounds ray.sign.x, bbox.bounds (1 - ray.sign.x),
      bbox.bounds ray.sign.y, bbox.bounds (1 - ray.sign.y) with
  | some bx0, some bx1, some by0, some by1 =>
    match slab_bound T bx0.x ray.origin.x ray.inv_direction.x,
        slab_bound T bx1.x ray.origin.x ray.inv_direction.x,
        slab_bound T by0.y ray.origin.y ray.inv_direction.y,
        slab_bound T by1.y ray.origin.y ray.inv_direction.y with
    | some xmin, some xmax, some ymin, some ymax =>
      if xmin > ymax ∨ ymin > xmax then some false
      else
        let min := max xmin ymin
        let max := Min.min xmax ymax
        match bbox.bounds ray.sign.z, bbox.bounds (1 - ray.sign.z) with
        | some bz0, some bz1 =>
          match slab_bound T bz0.z ray.origin.z ray.inv_direction.z,
              slab_bound T bz1.z ray.origin.z ray.inv_direction.z with
          | some zmin, some zmax => some (!(decide (min > zmax) || decide (zmin > max)))
          | _, _ => none
        | _, _ => none
    | _, _, _, _ => none
  | _, _, _, _ => none

/-- The ray stores the reciprocal and the sign indices of its direction: each component of
the direction is non-zero, `inv_direction` is its reciprocal `1 / direction` made in `T`,
and `sign` is 1 exactly for a negative component. -/
def Ray.consistent (T : IEEE.Format) (ray : Ray) : Prop :=
  ray.direction.x ≠ 0 ∧ ray.direction.y ≠ 0 ∧ ray.direction.z ≠ 0
  ∧ T.div 1 ray.direction.x = some ray.inv_direction.x
  ∧ T.div 1 ray.direction.y = some ray.inv_direction.y
  ∧ T.div 1 ray.direction.z = some ray.inv_direction.z
  ∧ ray.sign.x = (if ray.direction.x < 0 then 1 else 0)
  ∧ ray.sign.y = (if ray.direction.y < 0 then 1 else 0)
  ∧ ray.sign.z = (if ray.direction.z < 0 then 1 else 0)

/-- The point `origin + t * direction` of the ray lies in the box. -/
def hits_at (bbox : BBox) (ray : Ray) (t : ℚ) : Prop :=
  bbox.min_corner.x ≤ ray.origin.x + t * ray.direction.x
  ∧ ray.origin.x + t * ray.direction.x ≤ bbox.max_corner.x
  ∧ bbox.min_corner.y ≤ ray.origin.y + t * ray.direction.y
  ∧ ray.origin.y + t * ray.direction.y ≤ bbox.max_corner.y
  ∧ bbox.min_corner.z ≤ ray.origin.z + t * ray.direction.z
  ∧ ray.origin.z + t * ray.direction.z ≤ bbox.max_corner.z

namespace Example

/-- The unit box. -/
def unitBox : BBox := { min_corner := ⟨0, 0, 0⟩, max_corner := ⟨1, 1, 1⟩ }

/-- A ray from (-1, 2, 0) with direction (1, -1, 1/2): it enters the unit box at t = 1. -/
def slantedRay : Ray :=
  { origin := ⟨-1, 2, 0⟩, direction := ⟨1, -1, 1/2⟩, inv_direction := ⟨1, -1, 2⟩,
    sign := ⟨0, 1, 0⟩ }

end Example

end clarified

namespace CGAL

namespace Example

/-- The x-critical points of the unit circle, as the enumerating overload writes them:
(-1, 0) and (1, 0). -/
def circle_x_critical_points (_ca : Unit) : List (Int × Int) := [(-1, 0), (1, 0)]

/-- The y-critical points of the unit circle: (0, -1) and (0, 1). -/
def circle_y_critical_points (_ca : Unit) : List (Int × Int) := [(0, -1), (0, 1)]

end Example

end CGAL

/-! ## Theorems -/

namespace AABB

section Lemmas

variable {Query Pr Id Point Obj : Type}

open Naive_implementations Tree_vs_naive

theorem number_loop_eq (T : Traits Query Pr Id Point Obj) (query : Query) (p : List Pr)
    (result : Nat) :
    number_of_intersected_primitives_loop T query p result
      = result + p.countP (T.do_intersect_object query) := by
  induction p generalizing result with
  | nil => simp [number_of_intersected_primitives_loop]
  | cons pr rest ih =>
    rw [number_of_intersected_primitives_loop, ih, List.countP_cons]
    by_cases h : T.do_intersect_object query pr = true
    · simp [h]
      omega
    · simp [h]

theorem countP_eq_card_positions (f : Pr → Bool) (p : List Pr) :
    p.countP f = (Finset.univ.filter (fun i : Fin p.length => f (p.get i) = true)).card := by
  induction p with
  | nil => simp
  | cons pr rest ih =>
    rw [List.countP_cons, ih, Finset.card_filter, Finset.card_filter]
    simp only [List.length_cons]
    rw [Fin.sum_univ_succ]
    simp [add_comm]

theorem all_intersected_primitives_eq (T : Traits Query Pr Id Point Obj) (query : Query)
    (p : List Pr) (out : List Id) :
    all_intersected_primitives T query p out
      = out ++ (p.filter (T.do_intersect_object query)).map T.id := by
  induction p generalizing out with
  | nil => simp [all_intersected_primitives]
  | cons pr rest ih =>
    rw [all_intersected_primitives, ih]
    by_cases h : T.do_intersect_object query pr = true <;> simp [h]

theorem std_find_ne_end_iff [DecidableEq Id] (l : List Id) (value : Id) :
    std_find_ne_end l value = true ↔ value ∈ l := by
  induction l with
  | nil => simp [std_find_ne_end]
  | cons x rest ih =>
    rw [std_find_ne_end]
    by_cases h : x = value
    · simp [h]
    · have h2 : ¬ value = x := fun e => h e.symm
      simp [h, h2, ih]

theorem Intersected_primitives_all_check_iff [DecidableEq Id] (primitives_tree : List Id)
    (primitives_naive : List Id) :
    Intersected_primitives_all_check primitives_tree primitives_naive = true
      ↔ ∀ id ∈ primitives_naive, id ∈ primitives_tree := by
  induction primitives_naive with
  | nil => simp [Intersected_primitives_all_check]
  | cons x rest ih =>
    rw [Intersected_primitives_all_check]
    by_cases h : std_find_ne_end primitives_tree x = true
    · have hx := (std_find_ne_end_iff primitives_tree x).1 h
      simp [h, ih, hx]
    · have hx : x ∉ primitives_tree := fun hm => h ((std_find_ne_end_iff primitives_tree x).2 hm)
      simp [h, hx]

theorem Intersections_all_check_iff [DecidableEq Id] (intersections_naive_id : List Id)
    (intersections_tree : List (Obj × Id)) :
    Intersections_all_check intersections_naive_id intersections_tree = true
      ↔ ∀ oi ∈ intersections_tree, oi.2 ∈ intersections_naive_id := by
  induction intersections_tree with
  | nil => simp [Intersections_all_check]
  | cons x rest ih =>
    rw [Intersections_all_check]
    by_cases h : std_find_ne_end intersections_naive_id x.2 = true
    · have hx := (std_find_ne_end_iff intersections_naive_id x.2).1 h
      simp [h, ih, hx]
    · have hx : x.2 ∉ intersections_naive_id :=
        fun hm => h ((std_find_ne_end_iff intersections_naive_id x.2).2 hm)
      simp [h, hx]

/-- One pass of the closest-point loop keeps the running point on a visited primitive (or
unchanged), never increases its distance to the query, and leaves it at least as close as
every point of every visited primitive. -/
theorem closest_point_loop_spec {α : Type} [LinearOrder α] (T : Traits Query Pr Id Point Obj)
    (lies_on : Pr → Point → Prop) (sqd : Point → Point → α) (query : Point) (l : List Pr)
    (hkeep : ∀ pr ∈ l, ∀ bound : Point, (¬ ∃ x, lies_on pr x ∧ sqd query x < sqd query bound) →
      T.closest_point_object query pr bound = bound)
    (hnear : ∀ pr ∈ l, ∀ bound : Point, (∃ x, lies_on pr x ∧ sqd query x < sqd query bound) →
      lies_on pr (T.closest_point_object query pr bound) ∧
      ∀ x, lies_on pr x → sqd query (T.closest_point_object query pr bound) ≤ sqd query x)
    (c : Point) :
    (closest_point_loop T query l c = c ∨ ∃ pr ∈ l, lies_on pr (closest_point_loop T query l c))
    ∧ sqd query (closest_point_loop T query l c) ≤ sqd query c
    ∧ ∀ pr ∈ l, ∀ x, lies_on pr x → sqd query (closest_point_loop T query l c) ≤ sqd query x := by
  induction l generalizing c with
  | nil => simp [closest_point_loop]
  | cons pr rest ih =>
    rw [closest_point_loop]
    have hk := hkeep pr (List.mem_cons_self _ _) c
    have hn := hnear pr (List.mem_cons_self _ _) c
    obtain ⟨ih1, ih2, ih3⟩ := ih (fun q hq => hkeep q (List.mem_cons_of_mem _ hq))
      (fun q hq => hnear q (List.mem_cons_of_mem _ hq)) (T.closest_point_object query pr c)
    -- what the functor did on `pr`
    have step : (T.closest_point_object query pr c = c ∨ lies_on pr (T.closest_point_object query pr c))
        ∧ sqd query (T.closest_point_object query pr c) ≤ sqd query c
        ∧ ∀ x, lies_on pr x → sqd query (T.closest_point_object query pr c) ≤ sqd query x := by
      by_cases hex : ∃ x, lies_on pr x ∧ sqd query x < sqd query c
      · obtain ⟨hon, hmin⟩ := hn hex
        obtain ⟨x0, hx0, hlt⟩ := hex
        exact ⟨Or.inr hon, le_of_lt (lt_of_le_of_lt (hmin x0 hx0) hlt), hmin⟩
      · rw [hk hex]
        refine ⟨Or.inl rfl, le_refl _, ?_⟩
        intro x hx
        exact not_lt.1 (fun hlt => hex ⟨x, hx, hlt⟩)
    obtain ⟨s1, s2, s3⟩ := step
    refine ⟨?_, le_trans ih2 s2, ?_⟩
    · rcases ih1 with e | ⟨q, hq, hon⟩
      · rcases s1 with e1 | hon1
        · exact Or.inl (e.trans e1)
        · exact Or.inr ⟨pr, List.mem_cons_self _ _, by rw [e]; exact hon1⟩
      · exact Or.inr ⟨q, List.mem_cons_of_mem _ hq, hon⟩
    · intro q hq x hx
      rcases List.mem_cons.1 hq with e | hq
      · subst e
        exact le_trans ih2 (s3 x hx)
      · exact ih3 q hq x hx

/-- The loop of `closest_point_and_primitive` keeps the running point on the running
primitive, and the running primitive among the initial one and the visited ones. -/
theorem closest_point_and_primitive_loop_spec {α : Type} [LinearOrder α] [DecidableEq Point]
    (T : Traits Query Pr Id Point Obj)
    (lies_on : Pr → Point → Prop) (sqd : Point → Point → α) (query : Point) (l : List Pr)
    (hkeep : ∀ pr ∈ l, ∀ bound : Point, (¬ ∃ x, lies_on pr x ∧ sqd query x < sqd query bound) →
      T.closest_point_object query pr bound = bound)
    (hnear : ∀ pr ∈ l, ∀ bound : Point, (∃ x, lies_on pr x ∧ sqd query x < sqd query bound) →
      lies_on pr (T.closest_point_object query pr bound) ∧
      ∀ x, lies_on pr x → sqd query (T.closest_point_object query pr bound) ≤ sqd query x)
    (c : Point) (cp : Pr) (hc : lies_on cp c) :
    lies_on (closest_point_and_primitive_loop T query l (c, cp)).2
        (closest_point_and_primitive_loop T query l (c, cp)).1
    ∧ ((closest_point_and_primitive_loop T query l (c, cp)).2 = cp
        ∨ (closest_point_and_primitive_loop T query l (c, cp)).2 ∈ l) := by
  induction l generalizing c cp with
  | nil => simp [closest_point_and_primitive_loop, hc]
  | cons pr rest ih =>
    rw [closest_point_and_primitive_loop]
    have hk := hkeep pr (List.mem_cons_self _ _) c
    have hn := hnear pr (List.mem_cons_self _ _) c
    have ih0 := fun c0 cp0 h0 => ih (fun q hq => hkeep q (List.mem_cons_of_mem _ hq))
      (fun q hq => hnear q (List.mem_cons_of_mem _ hq)) c0 cp0 h0
    by_cases hne : T.closest_point_object query pr c ≠ c
    · have hon : lies_on pr (T.closest_point_object query pr c) := by
        by_cases hex : ∃ x, lies_on pr x ∧ sqd query x < sqd query c
        · exact (hn hex).1
        · exact absurd (hk hex) hne
      obtain ⟨h1, h2⟩ := ih0 _ pr hon
      simp only [hne, if_true, ne_eq, not_false_eq_true]
      refine ⟨h1, Or.inr ?_⟩
      rcases h2 with e | hm
      · rw [e]
        exact List.mem_cons_self _ _
      · exact List.mem_cons_of_mem _ hm
    · obtain ⟨h1, h2⟩ := ih0 c cp hc
      simp only [hne, if_false]
      refine ⟨h1, ?_⟩
      rcases h2 with e | hm
      · exact Or.inl e
      · exact Or.inr (List.mem_cons_of_mem _ hm)

end Lemmas

namespace Example

theorem clamp_lies_on (s : Seg) (h : s.lo ≤ s.hi) (q : Int) : s.lies_on (s.clamp q) := by
  unfold Seg.lies_on Seg.clamp
  split_ifs <;> omega

theorem clamp_nearest (s : Seg) (q x : Int) (hx : s.lies_on x) :
    sqd q (s.clamp q) ≤ sqd q x := by
  obtain ⟨h1, h2⟩ := hx
  unfold sqd Seg.clamp
  split_ifs with a b
  · nlinarith [mul_nonneg (sub_nonneg.2 h1) (sub_nonneg.2 (le_of_lt a))]
  · nlinarith [mul_nonneg (sub_nonneg.2 h2) (sub_nonneg.2 (le_of_lt b))]
  · nlinarith [mul_self_nonneg (q - x)]

theorem segTraits_keep (s : Seg) (h : s.lo ≤ s.hi) (q bound : Int)
    (hex : ¬ ∃ x, s.lies_on x ∧ sqd q x < sqd q bound) :
    segTraits.closest_point_object q s bound = bound := by
  have hn : ¬ sqd q (s.clamp q) < sqd q bound :=
    fun hlt => hex ⟨s.clamp q, clamp_lies_on s h q, hlt⟩
  simp [segTraits, hn]

theorem segTraits_near (s : Seg) (h : s.lo ≤ s.hi) (q bound : Int)
    (hex : ∃ x, s.lies_on x ∧ sqd q x < sqd q bound) :
    s.lies_on (segTraits.closest_point_object q s bound) ∧
      ∀ x, s.lies_on x → sqd q (segTraits.closest_point_object q s bound) ≤ sqd q x := by
  obtain ⟨x0, hx0, hlt⟩ := hex
  have hc : sqd q (s.clamp q) < sqd q bound := lt_of_le_of_lt (clamp_nearest s q x0 hx0) hlt
  have e : segTraits.closest_point_object q s bound = s.clamp q := by simp [segTraits, hc]
  rw [e]
  exact ⟨clamp_lies_on s h q, fun x hx => clamp_nearest s q x hx⟩

theorem segs_wellformed : ∀ s ∈ segs, s.lo ≤ s.hi := by
  intro s hs
  simp only [segs, List.mem_cons, List.mem_singleton, List.not_mem_nil, or_false] at hs
  rcases hs with e | e | e <;> subst e <;> decide

theorem segs_reference : ∀ s ∈ segs, s.lies_on (segTraits.reference_point s) := by
  intro s hs
  exact ⟨le_refl _, segs_wellformed s hs⟩

end Example

section Claims

variable {Query Pr Id Point Obj : Type}

open Naive_implementations Tree_vs_naive

/-- C1: `Naive_implementations::do_intersect` returns true if and only if at least one
primitive of the sequence satisfies the kernel's do_intersect predicate with the query. -/
theorem do_intersect_iff_exists (T : Traits Query Pr Id Point Obj) (query : Query)
    (p : List Pr) :
    do_intersect T query p = true ↔ ∃ pr ∈ p, T.do_intersect_object query pr = true := by
  induction p with
  | nil => simp [do_intersect]
  | cons pr rest ih =>
    rw [do_intersect]
    by_cases h : T.do_intersect_object query pr = true
    · simp [h]
    · simp [h, ih]

/-- C2: `Naive_implementations::number_of_intersected_primitives` returns exactly the number
of positions of the sequence whose primitive satisfies the do_intersect predicate; a primitive
put in front of the sequence adds 1 when it satisfies the predicate and 0 otherwise, and the
result never exceeds the number of primitives. -/
theorem number_of_intersected_primitives_exact (T : Traits Query Pr Id Point Obj)
    (query : Query) (p : List Pr) :
    number_of_intersected_primitives T query p = p.countP (T.do_intersect_object query)
    ∧ number_of_intersected_primitives T query p
        = (Finset.univ.filter
            (fun i : Fin p.length => T.do_intersect_object query (p.get i) = true)).card
    ∧ (∀ pr : Pr, number_of_intersected_primitives T query (pr :: p)
        = number_of_intersected_primitives T query p
          + (if T.do_intersect_object query pr then 1 else 0))
    ∧ number_of_intersected_primitives T query p ≤ p.length := by
  have h : ∀ l : List Pr, number_of_intersected_primitives T query l
      = l.countP (T.do_intersect_object query) := by
    intro l
    simp [number_of_intersected_primitives, number_loop_eq]
  refine ⟨h p, ?_, ?_, ?_⟩
  · rw [h]
    exact countP_eq_card_positions _ p
  · intro pr
    rw [h, h, List.countP_cons]
  · rw [h]
    exact List.countP_le_length _

/-- C3: `Naive_implementations::all_intersected_primitives` appends to the output, in
iteration order, the id of each primitive that satisfies the do_intersect predicate, one
output per intersecting position, and nothing for the other primitives. -/
theorem all_intersected_primitives_writes (T : Traits Query Pr Id Point Obj) (query : Query)
    (p : List Pr) (out : List Id) :
    all_intersected_primitives T query p out
      = out ++ (p.filter (fun pr => T.do_intersect_object query pr)).map T.id
    ∧ (all_intersected_primitives T query p []).length
      = p.countP (T.do_intersect_object query) := by
  constructor
  · exact all_intersected_primitives_eq T query p out
  · rw [all_intersected_primitives_eq]
    simp [List.countP_eq_length_filter]

/-- C4: on a non-empty sequence, when every reference point lies on its primitive and the
closest_point functor returns the bound if the primitive has no point strictly closer to the
query than the bound and otherwise a point of the primitive nearest to the query,
`Naive_implementations::closest_point` returns a point that lies on some primitive of the
sequence and is at least as close to the query as every point of every primitive. -/
theorem closest_point_minimizes {α : Type} [LinearOrder α] (T : Traits Query Pr Id Point Obj)
    (lies_on : Pr → Point → Prop) (sqd : Point → Point → α) (query : Point) (p : List Pr)
    (hne : p ≠ [])
    (href : ∀ pr ∈ p, lies_on pr (T.reference_point pr))
    (hkeep : ∀ pr ∈ p, ∀ bound : Point, (¬ ∃ x, lies_on pr x ∧ sqd query x < sqd query bound) →
      T.closest_point_object query pr bound = bound)
    (hnear : ∀ pr ∈ p, ∀ bound : Point, (∃ x, lies_on pr x ∧ sqd query x < sqd query bound) →
      lies_on pr (T.closest_point_object query pr bound) ∧
      ∀ x, lies_on pr x → sqd query (T.closest_point_object query pr bound) ≤ sqd query x) :
    ∃ c, closest_point T query p = some c
      ∧ (∃ pr ∈ p, lies_on pr c)
      ∧ ∀ pr ∈ p, ∀ x, lies_on pr x → sqd query c ≤ sqd query x := by
  cases p with
  | nil => exact absurd rfl hne
  | cons pr rest =>
    obtain ⟨h1, _, h3⟩ :=
      closest_point_loop_spec T lies_on sqd query (pr :: rest) hkeep hnear (T.reference_point pr)
    refine ⟨_, rfl, ?_, h3⟩
    rcases h1 with e | h
    · exact ⟨pr, List.mem_cons_self _ _, by rw [e]; exact href pr (List.mem_cons_self _ _)⟩
    · exact h

/-- C4 at the three segments of the example, query point 0. -/
theorem closest_point_minimizes_witness :
    Example.segs ≠ [] ∧
    ∃ c, closest_point Example.segTraits 0 Example.segs = some c
      ∧ (∃ pr ∈ Example.segs, pr.lies_on c)
      ∧ ∀ pr ∈ Example.segs, ∀ x, pr.lies_on x → Example.sqd 0 c ≤ Example.sqd 0 x :=
  ⟨by decide,
   closest_point_minimizes Example.segTraits Example.Seg.lies_on Example.sqd 0 Example.segs
    (by decide) Example.segs_reference
    (fun s hs bound => Example.segTraits_keep s (Example.segs_wellformed s hs) 0 bound)
    (fun s hs bound => Example.segTraits_near s (Example.segs_wellformed s hs) 0 bound)⟩

/-- C5: under the same assumptions, `Naive_implementations::closest_point_and_primitive`
returns a pair (p, id) where id is the id of a primitive of the sequence on which p lies; with
a single primitive the id is that primitive's id. -/
theorem closest_point_and_primitive_owner {α : Type} [LinearOrder α] [DecidableEq Point]
    (T : Traits Query Pr Id Point Obj)
    (lies_on : Pr → Point → Prop) (sqd : Point → Point → α) (query : Point) (p : List Pr)
    (hne : p ≠ [])
    (href : ∀ pr ∈ p, lies_on pr (T.reference_point pr))
    (hkeep : ∀ pr ∈ p, ∀ bound : Point, (¬ ∃ x, lies_on pr x ∧ sqd query x < sqd query bound) →
      T.closest_point_object query pr bound = bound)
    (hnear : ∀ pr ∈ p, ∀ bound : Point, (∃ x, lies_on pr x ∧ sqd query x < sqd query bound) →
      lies_on pr (T.closest_point_object query pr bound) ∧
      ∀ x, lies_on pr x → sqd query (T.closest_point_object query pr bound) ≤ sqd query x) :
    ∃ c id, closest_point_and_primitive T query p = some (c, id)
      ∧ (∃ pr ∈ p, T.id pr = id ∧ lies_on pr c)
      ∧ ∀ pr0, p = [pr0] → id = T.id pr0 := by
  cases p with
  | nil => exact absurd rfl hne
  | cons pr rest =>
    obtain ⟨h1, h2⟩ :=
      closest_point_and_primitive_loop_spec T lies_on sqd query (pr :: rest) hkeep hnear
        (T.reference_point pr) pr (href pr (List.mem_cons_self _ _))
    have hmem : (closest_point_and_primitive_loop T query (pr :: rest)
        (T.reference_point pr, pr)).2 ∈ pr :: rest := by
      rcases h2 with e | h
      · rw [e]
        exact List.mem_cons_self _ _
      · exact h
    refine ⟨_, _, rfl, ⟨_, hmem, rfl, h1⟩, ?_⟩
    intro pr0 e
    have hm : (closest_point_and_primitive_loop T query (pr :: rest)
        (T.reference_point pr, pr)).2 ∈ [pr0] := e ▸ hmem
    exact congrArg T.id (List.mem_singleton.1 hm)

/-- C5 at the three segments of the example, query point 0. -/
theorem closest_point_and_primitive_owner_witness :
    Example.segs ≠ [] ∧
    ∃ c id, closest_point_and_primitive Example.segTraits 0 Example.segs = some (c, id)
      ∧ (∃ pr ∈ Example.segs, Example.segTraits.id pr = id ∧ pr.lies_on c)
      ∧ ∀ pr0, Example.segs = [pr0] → id = Example.segTraits.id pr0 :=
  ⟨by decide,
   closest_point_and_primitive_owner Example.segTraits Example.Seg.lies_on Example.sqd 0
    Example.segs (by decide) Example.segs_reference
    (fun s hs bound => Example.segTraits_keep s (Example.segs_wellformed s hs) 0 bound)
    (fun s hs bound => Example.segTraits_near s (Example.segs_wellformed s hs) 0 bound)⟩

/-- C6: on an empty primitive collection the reference implementation returns the no-result
values: `do_intersect` is false, `number_of_intersected_primitives` is 0, and
`all_intersected_primitives` and `all_intersections` leave their output as it was. -/
theorem empty_collection_no_result (T : Traits Query Pr Id Point Obj) (query : Query)
    (ids : List Id) (objs : List (Obj × Id)) :
    do_intersect T query [] = false
    ∧ number_of_intersected_primitives T query [] = 0
    ∧ all_intersected_primitives T query [] ids = ids
    ∧ all_intersections T query [] objs = objs
    ∧ all_intersected_primitives T query [] [] = []
    ∧ all_intersections T query [] [] = [] :=
  ⟨rfl, rfl, rfl, rfl, rfl, rfl⟩

/-- C7: `Naive_implementations::closest_point` and `closest_point_and_primitive` fail their
assertion exactly on the empty collection, and return a result exactly on a non-empty one. -/
theorem closest_point_asserts_iff_empty [DecidableEq Point] (T : Traits Query Pr Id Point Obj)
    (query : Point) (p : List Pr) :
    (closest_point T query p = none ↔ p = [])
    ∧ (closest_point_and_primitive T query p = none ↔ p = [])
    ∧ ((∃ c, closest_point T query p = some c) ↔ p ≠ [])
    ∧ ((∃ r, closest_point_and_primitive T query p = some r) ↔ p ≠ []) := by
  cases p with
  | nil => simp [closest_point, closest_point_and_primitive]
  | cons pr rest => simp [closest_point, closest_point_and_primitive]

/-- C8 (the code at a failing input): the loop of `Intersected_primitives::operator()` only
looks up the oracle ids in the tree list. With an oracle list that is empty and a tree list
holding id 10 it accepts, and so does the whole check for a tree that also answers "none" to
`any_intersected_primitive`, although the two lists are not equal as sets. -/
theorem Intersected_primitives_accepts_unmatched_tree_id :
    all_intersected_primitives Example.segTraits 0 Example.segs [] = []
    ∧ Example.overReportingTree.all_intersected_primitives 0 = [10]
    ∧ Intersected_primitives_all_check [10] ([] : List Nat) = true
    ∧ Intersected_primitives Example.segTraits 0 Example.segs Example.overReportingTree = true
    ∧ ¬ (∀ id : Nat, id ∈ ([] : List Nat) ↔ id ∈ [10]) := by
  refine ⟨by decide, rfl, by decide, by decide, ?_⟩
  intro h
  exact absurd ((h 10).2 (List.mem_singleton.2 rfl)) (List.not_mem_nil 10)

/-- C9 (the code at a failing input): the loop of `Intersections::operator()` only looks up
the tree ids in the oracle list. With the oracle reporting ids 10 and 12 and a tree list that
is empty it accepts, and so does the whole check for a tree whose `any_intersection` returns
id 10, although the two id sets differ. -/
theorem Intersections_accepts_missing_tree_id :
    all_intersections Example.segTraits 4 Example.segs [] = [(4, 10), (4, 12)]
    ∧ Example.underReportingTree.all_intersections 4 = []
    ∧ Intersections_all_check [10, 12] ([] : List (Int × Nat)) = true
    ∧ Intersections Example.segTraits 4 Example.segs Example.underReportingTree = true
    ∧ ¬ (∀ id : Nat, id ∈ ([] : List (Int × Nat)).map primitive_id
          ↔ id ∈ ([(4, 10), (4, 12)] : List (Int × Nat)).map primitive_id) := by
  refine ⟨by decide, rfl, by decide, by decide, ?_⟩
  intro h
  exact absurd ((h 10).2 (by simp [primitive_id])) (by simp)

/-- C10: the any-result part of `Intersected_primitives::operator()` (and of
`Intersections::operator()`, on the ids) accepts exactly when the tree returned an id that
occurs in the oracle list, or the tree returned nothing and the oracle list is empty. -/
theorem any_check_accepts_iff [DecidableEq Id] (primitives_naive : List Id)
    (primitive : Option Id) (intersections_naive : List (Obj × Id))
    (intersection : Option (Obj × Id)) :
    (Intersected_primitives_any_check primitives_naive primitive = true
      ↔ (∃ id, primitive = some id ∧ id ∈ primitives_naive)
        ∨ (primitive = none ∧ primitives_naive = []))
    ∧ (Intersections_any_check intersections_naive (intersections_naive.map primitive_id)
          intersection = true
      ↔ (∃ o id, intersection = some (o, id) ∧ id ∈ intersections_naive.map primitive_id)
        ∨ (intersection = none ∧ intersections_naive.map primitive_id = [])) := by
  constructor
  · cases primitive with
    | none => simp [Intersected_primitives_any_check]
    | some id => simp [Intersected_primitives_any_check, std_find_ne_end_iff]
  · cases intersection with
    | none => simp [Intersections_any_check]
    | some oi =>
      obtain ⟨o, id⟩ := oi
      simp only [Intersections_any_check, std_find_ne_end_iff]
      constructor
      · intro h
        exact Or.inl ⟨o, id, rfl, h⟩
      · rintro (⟨o1, id1, e, h⟩ | ⟨e, _⟩)
        · cases e
          exact h
        · cases e

end Claims

end AABB

namespace IEEE

/-- The rounding on known values: 0.1 in `double` and in `float`, 0.7 in `float`, two ties
(2^53 + 1 goes down to the even 2^53, 2^53 + 3 goes up to the even 2^53 + 4), the subnormal
range (3/4 of the least positive `double` goes up to it, half of it goes to 0), the largest
finite numbers and the overflow beyond them, and the symmetry in the sign. -/
theorem round_examples :
    binary64.round (1 / 10) = some (3602879701896397 / 36028797018963968)
    ∧ binary32.round (1 / 10) = some (13421773 / 134217728)
    ∧ binary32.round (7 / 10) = some (11744051 / 16777216)
    ∧ binary64.round (2 ^ 53 + 1) = some (2 ^ 53)
    ∧ binary64.round (2 ^ 53 + 3) = some (2 ^ 53 + 4)
    ∧ binary64.round (3 / 4 * (1 / 2 ^ 1074)) = some (1 / 2 ^ 1074)
    ∧ binary64.round (1 / 2 * (1 / 2 ^ 1074)) = some 0
    ∧ binary64.round (2 ^ 1024 - 2 ^ 971) = some (2 ^ 1024 - 2 ^ 971)
    ∧ binary64.round (2 ^ 1024 - 2 ^ 970) = none
    ∧ binary32.round (2 ^ 128 - 2 ^ 104) = some (2 ^ 128 - 2 ^ 104)
    ∧ binary32.round (2 ^ 128 - 2 ^ 103) = none
    ∧ binary32.round (-16777217) = some (-16777216)
    ∧ binary32.round 0 = some 0 ∧ binary64.round 0 = some 0 := by
  decide!

end IEEE

namespace AABB

section DistanceChecks

open Tree_vs_naive

end DistanceChecks

end AABB

namespace CGAL

namespace Embree

theorem combination_between (a0 a1 a2 x0 x1 x2 : ℚ) (h0 : 0 ≤ a0) (h1 : 0 ≤ a1) (h2 : 0 ≤ a2)
    (hsum : a0 + a1 + a2 = 1) :
    std_min x0 x1 x2 ≤ a0 * x0 + a1 * x1 + a2 * x2
      ∧ a0 * x0 + a1 * x1 + a2 * x2 ≤ std_max x0 x1 x2 := by
  have l0 : std_min x0 x1 x2 ≤ x0 := le_trans (min_le_left _ _) (min_le_left _ _)
  have l1 : std_min x0 x1 x2 ≤ x1 := le_trans (min_le_left _ _) (min_le_right _ _)
  have l2 : std_min x0 x1 x2 ≤ x2 := min_le_right _ _
  have u0 : x0 ≤ std_max x0 x1 x2 := le_trans (le_max_left _ _) (le_max_left _ _)
  have u1 : x1 ≤ std_max x0 x1 x2 := le_trans (le_max_right _ _) (le_max_left _ _)
  have u2 : x2 ≤ std_max x0 x1 x2 := le_max_right _ _
  constructor
  · have e : std_min x0 x1 x2
        = a0 * std_min x0 x1 x2 + a1 * std_min x0 x1 x2 + a2 * std_min x0 x1 x2 := by
      rw [← add_mul, ← add_mul, hsum, one_mul]
    rw [e]
    have := mul_le_mul_of_nonneg_left l0 h0
    have := mul_le_mul_of_nonneg_left l1 h1
    have := mul_le_mul_of_nonneg_left l2 h2
    linarith
  · have e : std_max x0 x1 x2
        = a0 * std_max x0 x1 x2 + a1 * std_max x0 x1 x2 + a2 * std_max x0 x1 x2 := by
      rw [← add_mul, ← add_mul, hsum, one_mul]
    rw [e]
    have := mul_le_mul_of_nonneg_left u0 h0
    have := mul_le_mul_of_nonneg_left u1 h1
    have := mul_le_mul_of_nonneg_left u2 h2
    linarith

/-- The minimum of three numbers of `float` is a number of `float`. -/
theorem to_float_std_min (a b c : ℚ) (ha : to_float a = some a) (hb : to_float b = some b)
    (hc : to_float c = some c) : to_float (std_min a b c) = some (std_min a b c) := by
  unfold std_min
  rcases min_choice (min a b) c with h | h
  · rw [h]
    rcases min_choice a b with h2 | h2 <;> rw [h2] <;> assumption
  · rw [h]
    exact hc

/-- The maximum of three numbers of `float` is a number of `float`. -/
theorem to_float_std_max (a b c : ℚ) (ha : to_float a = some a) (hb : to_float b = some b)
    (hc : to_float c = some c) : to_float (std_max a b c) = some (std_max a b c) := by
  unfold std_max
  rcases max_choice (max a b) c with h | h
  · rw [h]
    rcases max_choice a b with h2 | h2 <;> rw [h2] <;> assumption
  · rw [h]
    exact hc

/-- When the coordinates of the three vertices of the face are numbers of `float` (a kernel
with `FT` = `float`), no conversion rounds: `bound_function` writes the componentwise
minimum and maximum, every convex combination of the vertices lies inside the box, and the
box has zero volume when the three vertices coincide. -/
theorem bound_function_box_of_float_points (surfaceMesh : PolygonMesh Point_3)
    (primID i0 i1 i2 : Nat) (v0 v1 v2 : Point_3) (a0 a1 a2 : ℚ)
    (hface : surfaceMesh.faces[primID]? = some [i0, i1, i2])
    (hv0 : surfaceMesh.points[i0]? = some v0)
    (hv1 : surfaceMesh.points[i1]? = some v1)
    (hv2 : surfaceMesh.points[i2]? = some v2)
    (f0 : float_point v0) (f1 : float_point v1) (f2 : float_point v2)
    (h0 : 0 ≤ a0) (h1 : 0 ≤ a1) (h2 : 0 ≤ a2) (hsum : a0 + a1 + a2 = 1) :
    ∃ b, bound_function surfaceMesh primID = some b
      ∧ b.lower_x = min (min v0.x v1.x) v2.x ∧ b.lower_y = min (min v0.y v1.y) v2.y
      ∧ b.lower_z = min (min v0.z v1.z) v2.z
      ∧ b.upper_x = max (max v0.x v1.x) v2.x ∧ b.upper_y = max (max v0.y v1.y) v2.y
      ∧ b.upper_z = max (max v0.z v1.z) v2.z
      ∧ b.contains (combination a0 a1 a2 v0 v1 v2)
      ∧ (v0 = v1 ∧ v1 = v2 → b.volume = 0) := by
  have hb : bound_function surfaceMesh primID
      = some { lower_x := std_min v0.x v1.x v2.x
               lower_y := std_min v0.y v1.y v2.y
               lower_z := std_min v0.z v1.z v2.z
               upper_x := std_max v0.x v1.x v2.x
               upper_y := std_max v0.y v1.y v2.y
               upper_z := std_max v0.z v1.z v2.z } := by
    simp [bound_function, hface, collect_face_points, hv0, hv1, hv2,
      to_float_std_min _ _ _ f0.1 f1.1 f2.1, to_float_std_min _ _ _ f0.2.1 f1.2.1 f2.2.1,
      to_float_std_min _ _ _ f0.2.2 f1.2.2 f2.2.2, to_float_std_max _ _ _ f0.1 f1.1 f2.1,
      to_float_std_max _ _ _ f0.2.1 f1.2.1 f2.2.1, to_float_std_max _ _ _ f0.2.2 f1.2.2 f2.2.2]
  refine ⟨_, hb, rfl, rfl, rfl, rfl, rfl, rfl, ?_, ?_⟩
  · have hx := combination_between a0 a1 a2 v0.x v1.x v2.x h0 h1 h2 hsum
    have hy := combination_between a0 a1 a2 v0.y v1.y v2.y h0 h1 h2 hsum
    have hz := combination_between a0 a1 a2 v0.z v1.z v2.z h0 h1 h2 hsum
    exact ⟨hx.1, hx.2, hy.1, hy.2, hz.1, hz.2⟩
  · rintro ⟨e1, e2⟩
    subst e1
    subst e2
    simp [RTCBounds.volume, std_min, std_max]

/-- When the three vertices of the face coincide, the box that `bound_function` writes has
zero volume, whatever the conversions round: each lower bound and the matching upper bound
are the conversion of the same number. -/
theorem bound_function_coincident_volume (surfaceMesh : PolygonMesh Point_3)
    (primID i0 i1 i2 : Nat) (v : Point_3) (b : RTCBounds)
    (hface : surfaceMesh.faces[primID]? = some [i0, i1, i2])
    (hv0 : surfaceMesh.points[i0]? = some v)
    (hv1 : surfaceMesh.points[i1]? = some v)
    (hv2 : surfaceMesh.points[i2]? = some v)
    (hb : bound_function surfaceMesh primID = some b) : b.volume = 0 := by
  have emin : ∀ a : ℚ, std_min a a a = a := fun a => by simp [std_min]
  have emax : ∀ a : ℚ, std_max a a a = a := fun a => by simp [std_max]
  simp only [bound_function, hface, collect_face_points, hv0, hv1, hv2, List.nil_append,
    List.cons_append, emin, emax] at hb
  cases hx : to_float v.x with
  | none => simp [hx] at hb
  | some x =>
    cases hy : to_float v.y with
    | none => simp [hx, hy] at hb
    | some y =>
      cases hz : to_float v.z with
      | none => simp [hx, hy, hz] at hb
      | some z =>
        simp only [hx, hy, hz, Option.some.injEq] at hb
        subst hb
        simp [RTCBounds.volume]

/-- The box of a triangle whose coordinates are numbers of `float`, and the box of a
triangle reduced to a point. -/
theorem bound_function_oneTriangle :
    bound_function Example.oneTriangle 0 = some ⟨0, 0, -2, 4, 6, 2⟩
    ∧ bound_function Example.pointTriangle 0 = some ⟨1, 2, 3, 1, 2, 3⟩
    ∧ (⟨1, 2, 3, 1, 2, 3⟩ : RTCBounds).volume = 0 := by
  refine ⟨by decide!, by decide!, ?_⟩
  unfold RTCBounds.volume
  decide!

/-- C13: on the triangle with vertices (16777217, 0, -16777217), (0, 0, 0), (0, 1, 0), whose
coordinates are numbers of `double`, `bound_function` writes upper_x = 16777216 and
lower_z = -16777216: the assignments to the `float` fields round the maximum 16777217 and
the minimum -16777217 to the nearest `float`. The box is not the componentwise minimum and
maximum of the vertices, and it does not contain the first vertex. -/
theorem bound_function_box_excludes_vertex :
    IEEE.binary64.round 16777217 = some 16777217
    ∧ IEEE.binary64.round (-16777217) = some (-16777217)
    ∧ bound_function Example.farTriangle 0 = some ⟨0, 0, -16777216, 16777216, 1, 0⟩
    ∧ std_max 16777217 0 0 = 16777217
    ∧ std_min (-16777217) 0 0 = -16777217
    ∧ ¬ (⟨0, 0, -16777216, 16777216, 1, 0⟩ : RTCBounds).contains ⟨16777217, 0, -16777217⟩
    ∧ combination 1 0 0 ⟨16777217, 0, -16777217⟩ ⟨0, 0, 0⟩ ⟨0, 1, 0⟩
        = ⟨16777217, 0, -16777217⟩ := by
  refine ⟨by decide!, by decide!, by decide!, by decide!, by decide!, ?_, by decide!⟩
  unfold RTCBounds.contains
  decide!

end Embree

end CGAL

namespace CGAL

namespace Polygon_mesh_processing

namespace pmp_internal

theorem min_element_loop_spec (rest : List Nat) :
    ∀ (pre : List Nat) (s sv : Nat), pre[s]? = some sv → (∀ x ∈ pre, sv ≤ x) →
      ∃ m, (pre ++ rest)[min_element_loop rest pre.length s sv]? = some m
        ∧ ∀ x ∈ pre ++ rest, m ≤ x := by
  induction rest with
  | nil =>
    intro pre s sv hs hmin
    exact ⟨sv, by simpa [min_element_loop] using hs, by simpa using hmin⟩
  | cons x rest ih =>
    intro pre s sv hs hmin
    have hlen : (pre ++ [x]).length = pre.length + 1 := by simp
    have hassoc : pre ++ x :: rest = (pre ++ [x]) ++ rest := by simp
    rw [min_element_loop, hassoc, ← hlen]
    by_cases hx : x < sv
    · simp only [hx, if_true]
      apply ih (pre ++ [x]) pre.length x
      · simp
      · intro y hy
        rcases List.mem_append.1 hy with h | h
        · exact le_trans (le_of_lt hx) (hmin y h)
        · simp only [List.mem_singleton] at h
          exact le_of_eq h.symm
    · simp only [hx, if_false]
      apply ih (pre ++ [x]) s sv
      · have hlt : s < pre.length := by
          by_contra hge
          rw [List.getElem?_eq_none (not_lt.1 hge)] at hs
          exact Option.noConfusion hs
        rw [List.getElem?_append_left hlt]
        exact hs
      · intro y hy
        rcases List.mem_append.1 hy with h | h
        · exact hmin y h
        · simp only [List.mem_singleton] at h
          rw [h]
          exact not_lt.1 hx

theorem min_element_spec (l : List Nat) (hne : l ≠ []) :
    ∃ m, l[min_element l]? = some m ∧ ∀ x ∈ l, m ≤ x := by
  cases l with
  | nil => exact absurd rfl hne
  | cons x rest =>
    have h := min_element_loop_spec rest [x] 0 x rfl (by simp)
    simpa [min_element] using h

/-- The rotated key starts with a smallest element of the list. -/
theorem rearrange_true_head (l : List Nat) (hne : l ≠ []) :
    ∃ m, (rearrange_face_ids l true).head? = some m ∧ m ∈ l ∧ ∀ x ∈ l, m ≤ x := by
  obtain ⟨m, hm, hmin⟩ := min_element_spec l hne
  have hlt : min_element l < l.length := by
    by_contra hge
    rw [List.getElem?_eq_none (not_lt.1 hge)] at hm
    exact Option.noConfusion hm
  refine ⟨m, ?_, ?_, hmin⟩
  · simp only [rearrange_face_ids, Bool.not_true, Bool.false_eq_true, if_false]
    rw [List.head?_rotate hlt]
    exact hm
  · exact List.getElem?_mem hm

theorem rearrange_true_isRotated (l : List Nat) : (rearrange_face_ids l true).IsRotated l := by
  simp only [rearrange_face_ids, Bool.not_true, Bool.false_eq_true, if_false]
  exact List.IsRotated.forall l _

theorem rearrange_false_perm (l : List Nat) : (rearrange_face_ids l false).Perm l := by
  simp only [rearrange_face_ids, Bool.not_false, if_true]
  exact List.perm_insertionSort _ l

theorem rearrange_false_sorted (l : List Nat) :
    (rearrange_face_ids l false).Sorted (fun a b => a ≤ b) := by
  simp only [rearrange_face_ids, Bool.not_false, if_true]
  exact List.sorted_insertionSort _ l

/-- Two rotations of a duplicate-free list that start with the same element are equal. -/
theorem rotation_eq_of_head (ra rb : List Nat) (hnd : ra.Nodup) (hrot : ra.IsRotated rb)
    (m : Nat) (ha : ra.head? = some m) (hb : rb.head? = some m) : ra = rb := by
  obtain ⟨n, hn, e⟩ := List.isRotated_iff_mod.1 hrot
  rcases Nat.lt_or_ge n ra.length with hlt | hge
  · have h0 : 0 < ra.length := lt_of_le_of_lt (Nat.zero_le _) hlt
    have h1 : ra[n]? = some m := by
      rw [← List.head?_rotate hlt, e]
      exact hb
    have h2 : ra[0]? = some m := by
      rw [← List.head?_eq_getElem?]
      exact ha
    rw [List.getElem?_eq_getElem hlt] at h1
    rw [List.getElem?_eq_getElem h0] at h2
    have h3 : ra[n] = ra[0] := by
      rw [Option.some.inj h1, Option.some.inj h2]
    have h4 : n = 0 := (hnd.getElem_inj_iff).1 h3
    rw [h4, List.rotate_zero] at e
    exact e
  · have h5 : n = ra.length := le_antisymm hn hge
    rw [h5, List.rotate_length] at e
    exact e

/-- C16: with `orientation_counts = true`, two lists of pairwise distinct ids get the same
key if and only if one is a cyclic rotation of the other; the triangles 0,1,2 and 0,2,1 get
different keys. -/
theorem rearrange_true_eq_iff_rotation (a b : List Nat) (ha : a.Nodup) (hb : b.Nodup) :
    (rearrange_face_ids a true = rearrange_face_ids b true ↔ ∃ n, a.rotate n = b)
    ∧ rearrange_face_ids [0, 1, 2] true ≠ rearrange_face_ids [0, 2, 1] true := by
  refine ⟨⟨?_, ?_⟩, by decide⟩
  · intro h
    have h1 : a.IsRotated (rearrange_face_ids a true) := (rearrange_true_isRotated a).symm
    rw [h] at h1
    exact h1.trans (rearrange_true_isRotated b)
  · intro h
    have hab : a.IsRotated b := h
    have hrot : (rearrange_face_ids a true).IsRotated (rearrange_face_ids b true) :=
      ((rearrange_true_isRotated a).trans hab).trans (rearrange_true_isRotated b).symm
    by_cases hne : a = []
    · subst hne
      obtain ⟨n, hn⟩ := h
      rw [List.rotate_nil] at hn
      rw [← hn]
    · have hbne : b ≠ [] := by
        intro hb0
        subst hb0
        exact hne (List.isRotated_nil_iff'.1 hab.symm).symm
      obtain ⟨ma, hah, hma, hamin⟩ := rearrange_true_head a hne
      obtain ⟨mb, hbh, hmb, hbmin⟩ := rearrange_true_head b hbne
      have e : ma = mb :=
        le_antisymm (hamin mb (hab.mem_iff.2 hmb)) (hbmin ma (hab.mem_iff.1 hma))
      rw [← e] at hbh
      exact rotation_eq_of_head _ _ ((rearrange_true_isRotated a).nodup_iff.2 ha) hrot ma hah hbh

/-- C16 on the quadrilateral 5,3,8,4 and its rotation 8,4,5,3. -/
theorem rearrange_true_eq_iff_rotation_witness :
    (rearrange_face_ids [5, 3, 8, 4] true = rearrange_face_ids [8, 4, 5, 3] true
      ↔ ∃ n, [5, 3, 8, 4].rotate n = [8, 4, 5, 3])
    ∧ rearrange_face_ids [0, 1, 2] true ≠ rearrange_face_ids [0, 2, 1] true :=
  rearrange_true_eq_iff_rotation [5, 3, 8, 4] [8, 4, 5, 3] (by decide) (by decide)

/-- C17: with `orientation_counts = false`, two lists of ids get the same key if and only
if they are permutations of each other, the key being the sorted permutation of the list;
0,1,2 and 0,2,1 get the same key. -/
theorem rearrange_false_eq_iff_perm (a b : List Nat) :
    (rearrange_face_ids a false = rearrange_face_ids b false ↔ a.Perm b)
    ∧ (rearrange_face_ids a false).Sorted (fun x y => x ≤ y)
    ∧ (rearrange_face_ids a false).Perm a
    ∧ rearrange_face_ids [0, 1, 2] false = rearrange_face_ids [0, 2, 1] false := by
  refine ⟨⟨?_, ?_⟩, rearrange_false_sorted a, rearrange_false_perm a, by decide⟩
  · intro h
    have h1 : a.Perm (rearrange_face_ids a false) := (rearrange_false_perm a).symm
    rw [h] at h1
    exact h1.trans (rearrange_false_perm b)
  · intro h
    exact List.eq_of_perm_of_sorted
      (((rearrange_false_perm a).trans h).trans (rearrange_false_perm b).symm)
      (rearrange_false_sorted a) (rearrange_false_sorted b)

end pmp_internal

end Polygon_mesh_processing

end CGAL

namespace CGAL

namespace Polygon_mesh_processing

section MapLemmas

variable {K V : Type} [DecidableEq K]

theorem map_find_mem (m : List (K × V)) (k : K) (v : V) (h : map_find m k = some v) :
    (k, v) ∈ m := by
  induction m with
  | nil => simp [map_find] at h
  | cons e rest ih =>
    obtain ⟨k0, v0⟩ := e
    rw [map_find] at h
    by_cases hk : k0 = k
    · simp only [hk, if_true, Option.some.injEq] at h
      rw [hk, h]
      exact List.mem_cons_self _ _
    · simp only [hk, if_false] at h
      exact List.mem_cons_of_mem _ (ih h)

theorem map_find_append (m e : List (K × V)) (k : K) (v : V) (h : map_find m k = some v) :
    map_find (m ++ e) k = some v := by
  induction m with
  | nil => simp [map_find] at h
  | cons e0 rest ih =>
    obtain ⟨k0, v0⟩ := e0
    rw [map_find] at h
    rw [List.cons_append, map_find]
    by_cases hk : k0 = k
    · simpa [hk] using h
    · simp only [hk, if_false] at h
      simp only [hk, if_false]
      exact ih h

theorem map_find_append_none (m : List (K × V)) (k : K) (v : V) (h : map_find m k = none) :
    map_find (m ++ [(k, v)]) k = some v := by
  induction m with
  | nil => simp [map_find]
  | cons e0 rest ih =>
    obtain ⟨k0, v0⟩ := e0
    rw [map_find] at h
    rw [List.cons_append, map_find]
    by_cases hk : k0 = k
    · simp [hk] at h
    · simp only [hk, if_false] at h
      simp only [hk, if_false]
      exact ih h

theorem map_insert_find (m : List (K × V)) (k : K) (v : V) :
    map_find (map_insert m k v).2.2 k = some (map_insert m k v).1 := by
  unfold map_insert
  cases h : map_find m k with
  | none => exact map_find_append_none m k v h
  | some v0 => exact h

theorem map_insert_keeps (m : List (K × V)) (k : K) (v : V) (k0 : K) (v0 : V)
    (h : map_find m k0 = some v0) : map_find (map_insert m k v).2.2 k0 = some v0 := by
  unfold map_insert
  cases hk : map_find m k with
  | none => exact map_find_append m _ k0 v0 h
  | some v1 => exact h

theorem map_insert_mem (m : List (K × V)) (k : K) (v : V) (e : K × V)
    (h : e ∈ (map_insert m k v).2.2) : e ∈ m ∨ e = (k, v) := by
  unfold map_insert at h
  cases hk : map_find m k with
  | none =>
    rw [hk] at h
    rcases List.mem_append.1 h with h1 | h1
    · exact Or.inl h1
    · exact Or.inr (List.mem_singleton.1 h1)
  | some v1 =>
    rw [hk] at h
    exact Or.inl h

theorem map_insert_values (m : List (K × Nat)) (k : K) (id : Nat)
    (h : m.map Prod.snd = List.range id) :
    (map_insert m k id).2.2.map Prod.snd
      = List.range (if (map_insert m k id).2.1 then id + 1 else id) := by
  unfold map_insert
  cases hk : map_find m k with
  | none => simp [h, List.range_succ]
  | some v1 => simpa using h

theorem map_erase_mem (m : List (K × V)) (k : K) (e : K × V) (h : e ∈ map_erase m k) :
    e ∈ m :=
  (List.mem_filter.1 h).1

/-- In a map whose values are `0, 1, ..., id - 1`, a value determines its key. -/
theorem map_find_injective (m : List (K × Nat)) (id : Nat)
    (h : m.map Prod.snd = List.range id) (p q : K) (i : Nat)
    (hp : map_find m p = some i) (hq : map_find m q = some i) : p = q := by
  have hnd : (m.map Prod.snd).Nodup := by
    rw [h]
    exact List.nodup_range id
  have e := List.inj_on_of_nodup_map hnd (map_find_mem m p i hp) (map_find_mem m q i hq) rfl
  exact congrArg Prod.fst e

end MapLemmas

section AssignLemmas

variable {Point : Type} [DecidableEq Point]

theorem assign_m1_ids_spec (l : List Point) :
    ∀ (v0 : Nat) (st : List (Point × Nat) × Nat × (Nat → Nat)),
      st.1.map Prod.snd = List.range st.2.1 →
      (assign_m1_ids l v0 st).1.map Prod.snd = List.range (assign_m1_ids l v0 st).2.1
      ∧ (∀ k i, map_find st.1 k = some i → map_find (assign_m1_ids l v0 st).1 k = some i)
      ∧ (∀ j p, l[j]? = some p →
          map_find (assign_m1_ids l v0 st).1 p = some ((assign_m1_ids l v0 st).2.2 (v0 + j)))
      ∧ (∀ i, i < v0 → (assign_m1_ids l v0 st).2.2 i = st.2.2 i) := by
  induction l with
  | nil =>
    intro v0 st h
    refine ⟨by simpa [assign_m1_ids] using h, fun k i hk => by simpa [assign_m1_ids] using hk,
      fun j p hj => by simp at hj, fun i _ => by simp [assign_m1_ids]⟩
  | cons p rest ih =>
    intro v0 st h
    obtain ⟨pm, id, vid⟩ := st
    simp only at h
    rw [assign_m1_ids]
    obtain ⟨i1, i2, i3, i4⟩ := ih (v0 + 1)
      ((map_insert pm p id).2.2, (if (map_insert pm p id).2.1 then id + 1 else id),
        fun i => if i = v0 then (map_insert pm p id).1 else vid i)
      (map_insert_values pm p id h)
    refine ⟨i1, ?_, ?_, ?_⟩
    · intro k i hk
      exact i2 k i (map_insert_keeps pm p id k i hk)
    · intro j q hj
      cases j with
      | zero =>
        simp only [List.getElem?_cons_zero, Option.some.injEq] at hj
        subst hj
        have h1 := i2 p _ (map_insert_find pm p id)
        have h2 := i4 v0 (Nat.lt_succ_self v0)
        simp only [if_true] at h2
        have e0 : v0 + 0 = v0 := rfl
        rw [e0, h2]
        exact h1
      | succ j =>
        simp only [List.getElem?_cons_succ] at hj
        have h1 := i3 j q hj
        have e : v0 + 1 + j = v0 + (j + 1) := by omega
        rw [e] at h1
        exact h1
    · intro i hi
      have h2 := i4 i (Nat.lt_succ_of_lt hi)
      have hne : i ≠ v0 := Nat.ne_of_lt hi
      simp only [hne, if_false] at h2
      exact h2

theorem assign_m2_ids_spec (l : List Point) :
    ∀ (v0 : Nat) (st : List (Point × Nat) × Nat × (Nat → Nat) × (Nat → Bool)),
      st.1.map Prod.snd = List.range st.2.1 →
      (assign_m2_ids l v0 st).1.map Prod.snd = List.range (assign_m2_ids l v0 st).2.1
      ∧ (∀ k i, map_find st.1 k = some i → map_find (assign_m2_ids l v0 st).1 k = some i)
      ∧ (∀ j p, l[j]? = some p →
          map_find (assign_m2_ids l v0 st).1 p = some ((assign_m2_ids l v0 st).2.2.1 (v0 + j)))
      ∧ (∀ i, i < v0 → (assign_m2_ids l v0 st).2.2.1 i = st.2.2.1 i) := by
  induction l with
  | nil =>
    intro v0 st h
    refine ⟨by simpa [assign_m2_ids] using h, fun k i hk => by simpa [assign_m2_ids] using hk,
      fun j p hj => by simp at hj, fun i _ => by simp [assign_m2_ids]⟩
  | cons p rest ih =>
    intro v0 st h
    obtain ⟨pm, id, vid, sh⟩ := st
    simp only at h
    rw [assign_m2_ids]
    obtain ⟨i1, i2, i3, i4⟩ := ih (v0 + 1)
      ((map_insert pm p id).2.2, (if (map_insert pm p id).2.1 then id + 1 else id),
        (fun i => if i = v0 then (map_insert pm p id).1 else vid i),
        (if (map_insert pm p id).2.1 then sh
         else fun i => if i = (map_insert pm p id).1 then true else sh i))
      (map_insert_values pm p id h)
    refine ⟨i1, ?_, ?_, ?_⟩
    · intro k i hk
      exact i2 k i (map_insert_keeps pm p id k i hk)
    · intro j q hj
      cases j with
      | zero =>
        simp only [List.getElem?_cons_zero, Option.some.injEq] at hj
        subst hj
        have h1 := i2 p _ (map_insert_find pm p id)
        have h2 := i4 v0 (Nat.lt_succ_self v0)
        simp only [if_true] at h2
        have e0 : v0 + 0 = v0 := rfl
        rw [e0, h2]
        exact h1
      | succ j =>
        simp only [List.getElem?_cons_succ] at hj
        have h1 := i3 j q hj
        have e : v0 + 1 + j = v0 + (j + 1) := by omega
        rw [e] at h1
        exact h1
    · intro i hi
      have h2 := i4 i (Nat.lt_succ_of_lt hi)
      have hne : i ≠ v0 := Nat.ne_of_lt hi
      simp only [hne, if_false] at h2
      exact h2

end AssignLemmas

end Polygon_mesh_processing

end CGAL

namespace CGAL

theorem collect_face_points_spec {Point : Type} (m : PolygonMesh Point) (vs : List Nat) :
    ∀ acc : List Point, (∀ v ∈ vs, v < m.points.length) →
      ∃ pts, collect_face_points m vs acc = some (acc ++ pts)
        ∧ vs.map (fun v => m.points[v]?) = pts.map some := by
  induction vs with
  | nil =>
    intro acc _
    exact ⟨[], by simp [collect_face_points], rfl⟩
  | cons v rest ih =>
    intro acc h
    have hv : v < m.points.length := h v (List.mem_cons_self _ _)
    obtain ⟨pts, h1, h2⟩ := ih (acc ++ [m.points[v]])
      (fun w hw => h w (List.mem_cons_of_mem _ hw))
    refine ⟨m.points[v] :: pts, ?_, ?_⟩
    · rw [collect_face_points, List.getElem?_eq_getElem hv]
      simpa using h1
    · simp [List.getElem?_eq_getElem hv, h2]

namespace Polygon_mesh_processing

open pmp_internal

theorem collect_face_ids_all_shared (vertex_id : Nat → Nat) (shared : Nat → Bool)
    (vs : List Nat) :
    ∀ acc : List Nat, (collect_face_ids vertex_id shared vs acc).2 = true →
      (collect_face_ids vertex_id shared vs acc).1 = acc ++ vs.map vertex_id := by
  induction vs with
  | nil =>
    intro acc _
    simp [collect_face_ids]
  | cons v rest ih =>
    intro acc h
    rw [collect_face_ids] at h ⊢
    by_cases hs : shared (vertex_id v) = true
    · simp only [hs, Bool.not_true, Bool.false_eq_true, if_false] at h ⊢
      rw [ih _ h]
      simp
    · simp [hs] at h

/-- Every entry of `m1_faces_map` after the loop over the faces of `m1` was there before or
is the key of a visited face. -/
theorem m1_faces_loop_entries (so : Bool) (vid : Nat → Nat) (shared : Nat → Bool)
    (R : List Nat × Nat → Prop) (l : List (List Nat)) :
    ∀ (f0 : Nat) (st : List (List Nat × Nat) × List Nat),
      (∀ e ∈ st.1, R e) →
      (∀ j vs, l[j]? = some vs → R (rearrange_face_ids (vs.map vid) so, f0 + j)) →
      ∀ e ∈ (m1_faces_loop so vid shared l f0 st).1, R e := by
  induction l with
  | nil =>
    intro f0 st h _ e he
    exact h e (by simpa [m1_faces_loop] using he)
  | cons vs rest ih =>
    intro f0 st h hl
    obtain ⟨mp, only⟩ := st
    have hrest : ∀ j ws, rest[j]? = some ws →
        R (rearrange_face_ids (ws.map vid) so, f0 + 1 + j) := by
      intro j ws hj
      have := hl (j + 1) ws (by simpa using hj)
      have e : f0 + 1 + j = f0 + (j + 1) := by omega
      rw [e]
      exact this
    rw [m1_faces_loop]
    by_cases hs : (collect_face_ids vid shared vs []).2 = true
    · simp only [hs, if_true]
      apply ih (f0 + 1) _ _ hrest
      intro e he
      rcases map_insert_mem _ _ _ e he with h1 | h1
      · exact h e h1
      · have hk := collect_face_ids_all_shared vid shared vs [] hs
        rw [h1, hk]
        have := hl 0 vs (List.getElem?_cons_zero ..)
        simpa using this
    · simp only [hs, if_false]
      exact ih (f0 + 1) _ h hrest

/-- Every pair of `common` after the loop over the faces of `m2` was there before or joins a
visited face of `m2` with the face mapped to its key in `m1_faces_map`. -/
theorem m2_faces_loop_common (so : Bool) (vid : Nat → Nat) (shared : Nat → Bool)
    (R : List Nat × Nat → Prop) (S : Nat × Nat → Prop) (l : List (List Nat)) :
    ∀ (f0 : Nat) (st : List (List Nat × Nat) × List (Nat × Nat) × List Nat),
      (∀ e ∈ st.1, R e) → (∀ c ∈ st.2.1, S c) →
      (∀ j vs f1, l[j]? = some vs → R (rearrange_face_ids (vs.map vid) so, f1) →
        S (f1, f0 + j)) →
      ∀ c ∈ (m2_faces_loop so vid shared l f0 st).2.1, S c := by
  induction l with
  | nil =>
    intro f0 st _ h _ c hc
    exact h c (by simpa [m2_faces_loop] using hc)
  | cons vs rest ih =>
    intro f0 st hR hS hl
    obtain ⟨mp, common, only⟩ := st
    have hrest : ∀ j ws f1, rest[j]? = some ws →
        R (rearrange_face_ids (ws.map vid) so, f1) → S (f1, f0 + 1 + j) := by
      intro j ws f1 hj hr
      have := hl (j + 1) ws f1 (by simpa using hj) hr
      have e : f0 + 1 + j = f0 + (j + 1) := by omega
      rw [e]
      exact this
    rw [m2_faces_loop]
    by_cases hs : (collect_face_ids vid shared vs []).2 = true
    · simp only [hs, if_true]
      have hk := collect_face_ids_all_shared vid shared vs [] hs
      simp only [List.nil_append] at hk
      rw [hk]
      cases hf : map_find mp (rearrange_face_ids (vs.map vid) so) with
      | none =>
        simp only
        exact ih (f0 + 1) _ hR hS hrest
      | some f1 =>
        simp only
        apply ih (f0 + 1) _ _ _ hrest
        · intro e he
          exact hR e (map_erase_mem _ _ e he)
        · intro c hc
          rcases List.mem_append.1 hc with h1 | h1
          · exact hS c h1
          · rw [List.mem_singleton.1 h1]
            have := hl 0 vs f1 (List.getElem?_cons_zero ..) (hR _ (map_find_mem _ _ _ hf))
            simpa using this
    · simp only [hs, if_false]
      exact ih (f0 + 1) _ hR hS hrest

end Polygon_mesh_processing

end CGAL

namespace CGAL

namespace Polygon_mesh_processing

open pmp_internal

theorem filterMap_id_map_some {α : Type} (l : List α) : (l.map some).filterMap id = l := by
  rw [List.filterMap_map]
  exact List.filterMap_some l

/-- Two faces whose lists of point ids get the same key carry the same points. -/
theorem same_points_of_same_key {Point : Type} [DecidableEq Point] (m1 m2 : PolygonMesh Point)
    (pm : List (Point × Nat)) (vid1 vid2 : Nat → Nat)
    (hA : ∀ j p, m1.points[j]? = some p → map_find pm p = some (vid1 j))
    (hB : ∀ j p, m2.points[j]? = some p → map_find pm p = some (vid2 j))
    (hC : ∀ p q i, map_find pm p = some i → map_find pm q = some i → p = q)
    (so : Bool) (vs1 vs2 : List Nat)
    (hv1 : ∀ v ∈ vs1, v < m1.points.length) (hv2 : ∀ v ∈ vs2, v < m2.points.length)
    (hk : rearrange_face_ids (vs1.map vid1) so = rearrange_face_ids (vs2.map vid2) so) :
    ∃ pts1 pts2, collect_face_points m1 vs1 [] = some pts1
      ∧ collect_face_points m2 vs2 [] = some pts2
      ∧ (so = false → pts1.Perm pts2)
      ∧ (so = true → ∃ n, pts1.rotate n = pts2)
      ∧ (∀ p ∈ pts1, p ∈ m2.points) ∧ (∀ p ∈ pts2, p ∈ m1.points) := by
  classical
  obtain ⟨pts1, c1, e1⟩ := collect_face_points_spec m1 vs1 [] hv1
  obtain ⟨pts2, c2, e2⟩ := collect_face_points_spec m2 vs2 [] hv2
  rw [List.nil_append] at c1 c2
  -- the point of an id
  obtain ⟨g, hg⟩ : ∃ g : Nat → Option Point, ∀ p i, map_find pm p = some i → g i = some p := by
    refine ⟨fun i => if h : ∃ p, map_find pm p = some i then some h.choose else none, ?_⟩
    intro p i hp
    have h : ∃ p, map_find pm p = some i := ⟨p, hp⟩
    simp only [h, dif_pos]
    exact congrArg some (hC _ _ i h.choose_spec hp)
  have g1 : pts1.map some = (vs1.map vid1).map g := by
    rw [← e1, List.map_map]
    apply List.map_congr_left
    intro v hv
    have hlt := hv1 v hv
    simp only [Function.comp]
    rw [hg _ _ (hA v _ (List.getElem?_eq_getElem hlt))]
    exact List.getElem?_eq_getElem hlt
  have g2 : pts2.map some = (vs2.map vid2).map g := by
    rw [← e2, List.map_map]
    apply List.map_congr_left
    intro v hv
    have hlt := hv2 v hv
    simp only [Function.comp]
    rw [hg _ _ (hB v _ (List.getElem?_eq_getElem hlt))]
    exact List.getElem?_eq_getElem hlt
  -- rotation when the orientation counts, permutation in both cases
  have hrot : so = true → pts1.IsRotated pts2 := by
    intro hso
    subst hso
    have h1 : (vs1.map vid1).IsRotated (rearrange_face_ids (vs1.map vid1) true) :=
      (rearrange_true_isRotated _).symm
    rw [hk] at h1
    have h2 : (vs1.map vid1).IsRotated (vs2.map vid2) := h1.trans (rearrange_true_isRotated _)
    obtain ⟨n, hn⟩ := h2.map g
    rw [← g1, ← g2, ← List.map_rotate] at hn
    exact ⟨n, List.map_injective_iff.2 (Option.some_injective _) hn⟩
  have hperm : pts1.Perm pts2 := by
    cases so with
    | true => exact (hrot rfl).perm
    | false =>
      have h1 : (vs1.map vid1).Perm (rearrange_face_ids (vs1.map vid1) false) :=
        (rearrange_false_perm _).symm
      rw [hk] at h1
      have h2 : (vs1.map vid1).Perm (vs2.map vid2) := h1.trans (rearrange_false_perm _)
      have h3 := (h2.map g).filterMap id
      rw [← g1, ← g2, filterMap_id_map_some, filterMap_id_map_some] at h3
      exact h3
  have mem1 : ∀ p ∈ pts1, p ∈ m1.points := by
    intro p hp
    have h1 : some p ∈ vs1.map (fun v => m1.points[v]?) := by
      rw [e1]
      exact List.mem_map_of_mem _ hp
    obtain ⟨v, _, hv⟩ := List.mem_map.1 h1
    exact List.getElem?_mem hv
  have mem2 : ∀ p ∈ pts2, p ∈ m2.points := by
    intro p hp
    have h1 : some p ∈ vs2.map (fun v => m2.points[v]?) := by
      rw [e2]
      exact List.mem_map_of_mem _ hp
    obtain ⟨v, _, hv⟩ := List.mem_map.1 h1
    exact List.getElem?_mem hv
  exact ⟨pts1, pts2, c1, c2, fun _ => hperm, hrot,
    fun p hp => mem2 p (hperm.mem_iff.1 hp), fun p hp => mem1 p (hperm.mem_iff.2 hp)⟩

/-- C14 (the code at a failing input): `m1` has two triangles lying on the same three points
and `m2` has one triangle on these points. The second triangle of `m1` gets the key of the
first one, `m1_faces_map.insert` does not insert it, and it is written to none of the
outputs: face 1 of `m1` is neither in `m1_only` nor the first component of a pair of `common`
(with either value of `require_same_orientation`). -/
theorem compare_meshes_loses_face_with_repeated_key :
    Example.doubledTriangle.faces.length = 2
    ∧ compare_meshes Example.doubledTriangle Example.singleTriangle false
        = { common := [(0, 0)], m1_only := [], m2_only := [] }
    ∧ compare_meshes Example.doubledTriangle Example.singleTriangle true
        = { common := [(0, 0)], m1_only := [], m2_only := [] }
    ∧ 1 ∉ (compare_meshes Example.doubledTriangle Example.singleTriangle false).m1_only
    ∧ 1 ∉ (compare_meshes Example.doubledTriangle Example.singleTriangle false).common.map
        Prod.fst := by
  refine ⟨rfl, by decide, by decide, by decide, by decide⟩

/-- C15: `compare_meshes` reports (f1, f2) in `common` only if f1 is a face of `m1` and f2 a
face of `m2` with the same vertex points: the two point lists are permutations of each other
when `require_same_orientation` is false and rotations of each other when it is true; so
every point of f1 is a point of `m2` and every point of f2 a point of `m1`. -/
theorem compare_meshes_common_same_points {Point : Type} [DecidableEq Point]
    (m1 m2 : PolygonMesh Point) (same_orientation : Bool)
    (hwf1 : m1.well_formed) (hwf2 : m2.well_formed) (f1 f2 : Nat)
    (hc : (f1, f2) ∈ (compare_meshes m1 m2 same_orientation).common) :
    ∃ pts1 pts2, face_points m1 f1 = some pts1 ∧ face_points m2 f2 = some pts2
      ∧ (same_orientation = false → pts1.Perm pts2)
      ∧ (same_orientation = true → ∃ n, pts1.rotate n = pts2)
      ∧ (∀ p ∈ pts1, p ∈ m2.points) ∧ (∀ p ∈ pts2, p ∈ m1.points) := by
  have A1 := assign_m1_ids_spec m1.points 0 ([], 0, fun _ => 2 ^ 64 - 1) (by simp)
  simp only [compare_meshes] at hc
  generalize assign_m1_ids m1.points 0 ([], 0, fun _ => 2 ^ 64 - 1) = s1 at hc A1
  obtain ⟨a1, _, a3, _⟩ := A1
  have A2 := assign_m2_ids_spec m2.points 0
    (s1.1, s1.2.1, (fun _ => 2 ^ 64 - 1), fun _ => false) a1
  generalize assign_m2_ids m2.points 0
    (s1.1, s1.2.1, (fun _ => 2 ^ 64 - 1), fun _ => false) = s2 at hc A2
  obtain ⟨b1, b2, b3, _⟩ := A2
  have hA : ∀ j p, m1.points[j]? = some p → map_find s2.1 p = some (s1.2.2 j) := by
    intro j p hj
    have := a3 j p hj
    rw [Nat.zero_add] at this
    exact b2 p _ this
  have hB : ∀ j p, m2.points[j]? = some p → map_find s2.1 p = some (s2.2.2.1 j) := by
    intro j p hj
    have := b3 j p hj
    rw [Nat.zero_add] at this
    exact this
  have hC : ∀ p q i, map_find s2.1 p = some i → map_find s2.1 q = some i → p = q :=
    fun p q i => map_find_injective s2.1 s2.2.1 b1 p q i
  -- the entries of the face map and the pairs of `common`
  have hR := m1_faces_loop_entries same_orientation s1.2.2 s2.2.2.2
    (fun e => ∃ vs, m1.faces[e.2]? = some vs
      ∧ e.1 = rearrange_face_ids (vs.map s1.2.2) same_orientation)
    m1.faces 0 ([], []) (by simp)
    (by
      intro j vs hj
      rw [Nat.zero_add]
      exact ⟨vs, hj, rfl⟩)
  have hS := m2_faces_loop_common same_orientation s2.2.2.1 s2.2.2.2
    (fun e => ∃ vs, m1.faces[e.2]? = some vs
      ∧ e.1 = rearrange_face_ids (vs.map s1.2.2) same_orientation)
    (fun c => ∃ vs1 vs2, m1.faces[c.1]? = some vs1 ∧ m2.faces[c.2]? = some vs2
      ∧ rearrange_face_ids (vs1.map s1.2.2) same_orientation
        = rearrange_face_ids (vs2.map s2.2.2.1) same_orientation)
    m2.faces 0 _ hR (by simp)
    (by
      intro j vs2 g1 hj hr
      obtain ⟨vs1, h1, h2⟩ := hr
      rw [Nat.zero_add]
      exact ⟨vs1, vs2, h1, hj, h2.symm⟩)
    (f1, f2) hc
  obtain ⟨vs1, vs2, h1, h2, hk⟩ := hS
  simp only at h1 h2
  have hv1 : ∀ v ∈ vs1, v < m1.points.length := hwf1 vs1 (List.getElem?_mem h1)
  have hv2 : ∀ v ∈ vs2, v < m2.points.length := hwf2 vs2 (List.getElem?_mem h2)
  have key := same_points_of_same_key m1 m2 s2.1 s1.2.2 s2.2.2.1 hA hB hC same_orientation
    vs1 vs2 hv1 hv2 hk
  simpa [face_points, h1, h2] using key

/-- C15 on the two triangulated squares of the example, for the pair (1, 1): the second
triangles are mirror images of each other and are paired when the orientation is ignored. -/
theorem compare_meshes_common_same_points_witness :
    Example.squareA.well_formed ∧ Example.squareB.well_formed
    ∧ (1, 1) ∈ (compare_meshes Example.squareA Example.squareB false).common
    ∧ ∃ pts1 pts2, face_points Example.squareA 1 = some pts1
      ∧ face_points Example.squareB 1 = some pts2
      ∧ (false = false → pts1.Perm pts2)
      ∧ (false = true → ∃ n, pts1.rotate n = pts2)
      ∧ (∀ p ∈ pts1, p ∈ Example.squareB.points) ∧ (∀ p ∈ pts2, p ∈ Example.squareA.points) :=
  ⟨by unfold PolygonMesh.well_formed; decide, by unfold PolygonMesh.well_formed; decide,
   by decide,
   compare_meshes_common_same_points Example.squareA Example.squareB false
    (by unfold PolygonMesh.well_formed; decide) (by unfold PolygonMesh.well_formed; decide)
    1 1 (by decide)⟩

end Polygon_mesh_processing

end CGAL

namespace CGAL

namespace Polygon_mesh_processing

open Kernel Example

theorem tetrahedron_closed (p0 p1 p2 p3 : Point_3) :
    is_triangle_mesh (tetrahedron p0 p1 p2 p3) = true
    ∧ is_closed (tetrahedron p0 p1 p2 p3) = true
    ∧ is_triangle_mesh (tetrahedron_reversed p0 p1 p2 p3) = true
    ∧ is_closed (tetrahedron_reversed p0 p1 p2 p3) = true :=
  ⟨rfl, rfl, rfl, rfl⟩

theorem face_corners_triangle (m : PolygonMesh Point_3) (a b c : Nat) (p q r : Point_3)
    (ha : m.points[a]? = some p) (hb : m.points[b]? = some q) (hc : m.points[c]? = some r) :
    face_corners m [a, b, c] = some (p, q, r) := by
  simp [face_corners, ha, hb, hc]

theorem volume_loop_triangles (m : PolygonMesh Point_3)
    (a b c d e f g h i j k l : Nat) (pa pb pc pd pe pf pg ph pi pj pk pl : Point_3)
    (h1 : face_corners m [a, b, c] = some (pa, pb, pc))
    (h2 : face_corners m [d, e, f] = some (pd, pe, pf))
    (h3 : face_corners m [g, h, i] = some (pg, ph, pi))
    (h4 : face_corners m [j, k, l] = some (pj, pk, pl)) :
    volume_loop m [[a, b, c], [d, e, f], [g, h, i], [j, k, l]] 0
      = some (0 + Compute_volume_3 ORIGIN pa pb pc + Compute_volume_3 ORIGIN pd pe pf
          + Compute_volume_3 ORIGIN pg ph pi + Compute_volume_3 ORIGIN pj pk pl) := by
  rw [volume_loop, h1]
  dsimp only
  rw [volume_loop, h2]
  dsimp only
  rw [volume_loop, h3]
  dsimp only
  rw [volume_loop, h4]
  dsimp only
  rw [volume_loop]

theorem volume_tetrahedron_eq (p0 p1 p2 p3 : Point_3) :
    volume (tetrahedron p0 p1 p2 p3) = some (orientation_det p0 p1 p2 p3 / 6)
    ∧ volume (tetrahedron_reversed p0 p1 p2 p3)
        = some (-orientation_det p0 p1 p2 p3 / 6) := by
  obtain ⟨c1, c2, c3, c4⟩ := tetrahedron_closed p0 p1 p2 p3
  constructor
  · rw [volume, c1, c2]
    have hf : (tetrahedron p0 p1 p2 p3).faces = [[0, 2, 1], [0, 1, 3], [1, 2, 3], [0, 3, 2]] :=
      rfl
    rw [if_pos rfl, if_pos rfl, hf,
      volume_loop_triangles (tetrahedron p0 p1 p2 p3) 0 2 1 0 1 3 1 2 3 0 3 2
        p0 p2 p1 p0 p1 p3 p1 p2 p3 p0 p3 p2
        (face_corners_triangle _ 0 2 1 p0 p2 p1 rfl rfl rfl)
        (face_corners_triangle _ 0 1 3 p0 p1 p3 rfl rfl rfl)
        (face_corners_triangle _ 1 2 3 p1 p2 p3 rfl rfl rfl)
        (face_corners_triangle _ 0 3 2 p0 p3 p2 rfl rfl rfl)]
    simp only [Option.some.injEq, Compute_volume_3, ORIGIN, orientation_det, determinant,
      Construct_vector_3]
    ring
  · rw [volume, c3, c4]
    have hf : (tetrahedron_reversed p0 p1 p2 p3).faces
        = [[0, 1, 2], [0, 3, 1], [1, 3, 2], [0, 2, 3]] := rfl
    rw [if_pos rfl, if_pos rfl, hf,
      volume_loop_triangles (tetrahedron_reversed p0 p1 p2 p3) 0 1 2 0 3 1 1 3 2 0 2 3
        p0 p1 p2 p0 p3 p1 p1 p3 p2 p0 p2 p3
        (face_corners_triangle _ 0 1 2 p0 p1 p2 rfl rfl rfl)
        (face_corners_triangle _ 0 3 1 p0 p3 p1 rfl rfl rfl)
        (face_corners_triangle _ 1 3 2 p1 p3 p2 rfl rfl rfl)
        (face_corners_triangle _ 0 2 3 p0 p2 p3 rfl rfl rfl)]
    simp only [Option.some.injEq, Compute_volume_3, ORIGIN, orientation_det, determinant,
      Construct_vector_3]
    ring

/-- A triangle of the tetrahedron is outward when the determinant of its corners with each
of the four points is not positive. -/
theorem outward_of_four (a b c p0 p1 p2 p3 : Point_3)
    (h0 : orientation_det a b c p0 ≤ 0) (h1 : orientation_det a b c p1 ≤ 0)
    (h2 : orientation_det a b c p2 ≤ 0) (h3 : orientation_det a b c p3 ≤ 0) :
    ∀ d ∈ [p0, p1, p2, p3], outward_face a b c d := by
  intro d hd
  simp only [List.mem_cons, List.mem_singleton, List.not_mem_nil, or_false] at hd
  rcases hd with e | e | e | e <;> rw [e] <;> assumption

theorem orientation_det_facts (p0 p1 p2 p3 : Point_3) :
    orientation_det p0 p2 p1 p3 = -orientation_det p0 p1 p2 p3
    ∧ orientation_det p0 p1 p3 p2 = -orientation_det p0 p1 p2 p3
    ∧ orientation_det p1 p2 p3 p0 = -orientation_det p0 p1 p2 p3
    ∧ orientation_det p0 p3 p2 p1 = -orientation_det p0 p1 p2 p3
    ∧ orientation_det p0 p1 p2 p0 = 0 ∧ orientation_det p0 p1 p2 p1 = 0
    ∧ orientation_det p0 p1 p2 p2 = 0 := by
  simp only [orientation_det, determinant, Construct_vector_3]
  refine ⟨?_, ?_, ?_, ?_, ?_, ?_, ?_⟩ <;> ring

theorem tetrahedron_faces_outward (p0 p1 p2 p3 : Point_3)
    (h : 0 ≤ orientation_det p0 p1 p2 p3) : faces_outward (tetrahedron p0 p1 p2 p3) := by
  obtain ⟨e1, e2, e3, e4, _⟩ := orientation_det_facts p0 p1 p2 p3
  have z := fun a b c : Point_3 => orientation_det_facts a b c a
  intro vs hvs a b c hc
  have hp : (tetrahedron p0 p1 p2 p3).points = [p0, p1, p2, p3] := rfl
  rw [hp]
  have hf : (tetrahedron p0 p1 p2 p3).faces = [[0, 2, 1], [0, 1, 3], [1, 2, 3], [0, 3, 2]] :=
    rfl
  rw [hf] at hvs
  simp only [List.mem_cons, List.mem_singleton, List.not_mem_nil, or_false] at hvs
  rcases hvs with e | e | e | e
  · rw [e, face_corners_triangle (tetrahedron p0 p1 p2 p3) 0 2 1 p0 p2 p1 rfl rfl rfl] at hc
    obtain ⟨rfl, rfl, rfl⟩ : p0 = a ∧ p2 = b ∧ p1 = c := by simpa using hc
    exact outward_of_four _ _ _ _ _ _ _ (le_of_eq (z _ _ _).2.2.2.2.1)
      (le_of_eq (z _ _ _).2.2.2.2.2.2) (le_of_eq (z _ _ _).2.2.2.2.2.1) (by rw [e1]; linarith)
  · rw [e, face_corners_triangle (tetrahedron p0 p1 p2 p3) 0 1 3 p0 p1 p3 rfl rfl rfl] at hc
    obtain ⟨rfl, rfl, rfl⟩ : p0 = a ∧ p1 = b ∧ p3 = c := by simpa using hc
    exact outward_of_four _ _ _ _ _ _ _ (le_of_eq (z _ _ _).2.2.2.2.1)
      (le_of_eq (z _ _ _).2.2.2.2.2.1) (by rw [e2]; linarith) (le_of_eq (z _ _ _).2.2.2.2.2.2)
  · rw [e, face_corners_triangle (tetrahedron p0 p1 p2 p3) 1 2 3 p1 p2 p3 rfl rfl rfl] at hc
    obtain ⟨rfl, rfl, rfl⟩ : p1 = a ∧ p2 = b ∧ p3 = c := by simpa using hc
    exact outward_of_four _ _ _ _ _ _ _ (by rw [e3]; linarith)
      (le_of_eq (z _ _ _).2.2.2.2.1) (le_of_eq (z _ _ _).2.2.2.2.2.1)
      (le_of_eq (z _ _ _).2.2.2.2.2.2)
  · rw [e, face_corners_triangle (tetrahedron p0 p1 p2 p3) 0 3 2 p0 p3 p2 rfl rfl rfl] at hc
    obtain ⟨rfl, rfl, rfl⟩ : p0 = a ∧ p3 = b ∧ p2 = c := by simpa using hc
    exact outward_of_four _ _ _ _ _ _ _ (le_of_eq (z _ _ _).2.2.2.2.1) (by rw [e4]; linarith)
      (le_of_eq (z _ _ _).2.2.2.2.2.2) (le_of_eq (z _ _ _).2.2.2.2.2.1)

end Polygon_mesh_processing

end CGAL

namespace CGAL

namespace Polygon_mesh_processing

open Kernel Example

theorem orientation_det_reversed_facts (p0 p1 p2 p3 : Point_3) :
    orientation_det p0 p3 p1 p2 = orientation_det p0 p1 p2 p3
    ∧ orientation_det p1 p3 p2 p0 = orientation_det p0 p1 p2 p3
    ∧ orientation_det p0 p2 p3 p1 = orientation_det p0 p1 p2 p3 := by
  simp only [orientation_det, determinant, Construct_vector_3]
  refine ⟨?_, ?_, ?_⟩ <;> ring

theorem tetrahedron_reversed_faces_outward (p0 p1 p2 p3 : Point_3)
    (h : orientation_det p0 p1 p2 p3 ≤ 0) :
    faces_outward (tetrahedron_reversed p0 p1 p2 p3) := by
  obtain ⟨e2, e3, e4⟩ := orientation_det_reversed_facts p0 p1 p2 p3
  have z := fun a b c : Point_3 => orientation_det_facts a b c a
  intro vs hvs a b c hc
  have hp : (tetrahedron_reversed p0 p1 p2 p3).points = [p0, p1, p2, p3] := rfl
  rw [hp]
  have hf : (tetrahedron_reversed p0 p1 p2 p3).faces
      = [[0, 1, 2], [0, 3, 1], [1, 3, 2], [0, 2, 3]] := rfl
  rw [hf] at hvs
  simp only [List.mem_cons, List.mem_singleton, List.not_mem_nil, or_false] at hvs
  rcases hvs with e | e | e | e
  · rw [e, face_corners_triangle (tetrahedron_reversed p0 p1 p2 p3) 0 1 2 p0 p1 p2
      rfl rfl rfl] at hc
    obtain ⟨rfl, rfl, rfl⟩ : p0 = a ∧ p1 = b ∧ p2 = c := by simpa using hc
    exact outward_of_four _ _ _ _ _ _ _ (le_of_eq (z _ _ _).2.2.2.2.1)
      (le_of_eq (z _ _ _).2.2.2.2.2.1) (le_of_eq (z _ _ _).2.2.2.2.2.2) h
  · rw [e, face_corners_triangle (tetrahedron_reversed p0 p1 p2 p3) 0 3 1 p0 p3 p1
      rfl rfl rfl] at hc
    obtain ⟨rfl, rfl, rfl⟩ : p0 = a ∧ p3 = b ∧ p1 = c := by simpa using hc
    exact outward_of_four _ _ _ _ _ _ _ (le_of_eq (z _ _ _).2.2.2.2.1)
      (le_of_eq (z _ _ _).2.2.2.2.2.2) (by rw [e2]; exact h) (le_of_eq (z _ _ _).2.2.2.2.2.1)
  · rw [e, face_corners_triangle (tetrahedron_reversed p0 p1 p2 p3) 1 3 2 p1 p3 p2
      rfl rfl rfl] at hc
    obtain ⟨rfl, rfl, rfl⟩ : p1 = a ∧ p3 = b ∧ p2 = c := by simpa using hc
    exact outward_of_four _ _ _ _ _ _ _ (by rw [e3]; exact h)
      (le_of_eq (z _ _ _).2.2.2.2.1) (le_of_eq (z _ _ _).2.2.2.2.2.2)
      (le_of_eq (z _ _ _).2.2.2.2.2.1)
  · rw [e, face_corners_triangle (tetrahedron_reversed p0 p1 p2 p3) 0 2 3 p0 p2 p3
      rfl rfl rfl] at hc
    obtain ⟨rfl, rfl, rfl⟩ : p0 = a ∧ p2 = b ∧ p3 = c := by simpa using hc
    exact outward_of_four _ _ _ _ _ _ _ (le_of_eq (z _ _ _).2.2.2.2.1) (by rw [e4]; exact h)
      (le_of_eq (z _ _ _).2.2.2.2.2.1) (le_of_eq (z _ _ _).2.2.2.2.2.2)

/-- C19: on the closed triangle mesh of the tetrahedron p0 p1 p2 p3 with outward-oriented
faces, `volume` returns |det(p1 - p0, p2 - p0, p3 - p0)| / 6, for every position of the four
points relative to the origin. -/
theorem volume_outward_tetrahedron (p0 p1 p2 p3 : Point_3) :
    volume (outward_tetrahedron p0 p1 p2 p3)
      = some (|determinant (Construct_vector_3 p0 p1) (Construct_vector_3 p0 p2)
                (Construct_vector_3 p0 p3)| / 6)
    ∧ faces_outward (outward_tetrahedron p0 p1 p2 p3) := by
  have hv := volume_tetrahedron_eq p0 p1 p2 p3
  unfold outward_tetrahedron
  by_cases h : 0 ≤ orientation_det p0 p1 p2 p3
  · rw [if_pos h]
    refine ⟨?_, tetrahedron_faces_outward p0 p1 p2 p3 h⟩
    rw [hv.1]
    unfold orientation_det at h
    rw [abs_of_nonneg h]
    rfl
  · rw [if_neg h]
    have hlt : orientation_det p0 p1 p2 p3 < 0 := not_le.1 h
    refine ⟨?_, tetrahedron_reversed_faces_outward p0 p1 p2 p3 (le_of_lt hlt)⟩
    rw [hv.2]
    unfold orientation_det at hlt
    rw [abs_of_neg hlt]
    rfl

theorem centroid_loop_triangles (m : PolygonMesh Point_3)
    (a b c d e f g h i j k l : Nat) (pa pb pc pd pe pf pg ph pi pj pk pl : Point_3)
    (h1 : face_corners m [a, b, c] = some (pa, pb, pc))
    (h2 : face_corners m [d, e, f] = some (pd, pe, pf))
    (h3 : face_corners m [g, h, i] = some (pg, ph, pi))
    (h4 : face_corners m [j, k, l] = some (pj, pk, pl)) (st : ℚ × Point_3) :
    centroid_loop m [[a, b, c], [d, e, f], [g, h, i], [j, k, l]] st
      = some (centroid_face_step pj pk pl (centroid_face_step pg ph pi
          (centroid_face_step pd pe pf (centroid_face_step pa pb pc st)))) := by
  rw [centroid_loop, h1]
  dsimp only
  rw [centroid_loop, h2]
  dsimp only
  rw [centroid_loop, h3]
  dsimp only
  rw [centroid_loop, h4]
  dsimp only
  rw [centroid_loop]

/-- The sums accumulated by `centroid` over the four faces of the tetrahedron. -/
theorem centroid_loop_tetrahedron (p0 p1 p2 p3 : Point_3) :
    centroid_loop (tetrahedron p0 p1 p2 p3) (tetrahedron p0 p1 p2 p3).faces (0, ORIGIN)
      = some (orientation_det p0 p1 p2 p3 / 6,
          ⟨(p0.x + p1.x + p2.x + p3.x) * orientation_det p0 p1 p2 p3 / 12,
           (p0.y + p1.y + p2.y + p3.y) * orientation_det p0 p1 p2 p3 / 12,
           (p0.z + p1.z + p2.z + p3.z) * orientation_det p0 p1 p2 p3 / 12⟩) := by
  have hf : (tetrahedron p0 p1 p2 p3).faces = [[0, 2, 1], [0, 1, 3], [1, 2, 3], [0, 3, 2]] :=
    rfl
  rw [hf, centroid_loop_triangles (tetrahedron p0 p1 p2 p3) 0 2 1 0 1 3 1 2 3 0 3 2
      p0 p2 p1 p0 p1 p3 p1 p2 p3 p0 p3 p2
      (face_corners_triangle _ 0 2 1 p0 p2 p1 rfl rfl rfl)
      (face_corners_triangle _ 0 1 3 p0 p1 p3 rfl rfl rfl)
      (face_corners_triangle _ 1 2 3 p1 p2 p3 rfl rfl rfl)
      (face_corners_triangle _ 0 3 2 p0 p3 p2 rfl rfl rfl)]
  simp only [centroid_face_step, ORIGIN, orientation_det, determinant,
    Construct_vector_3, Construct_normal_3, cross_product, Compute_scalar_product_3,
    Construct_scaled_vector_3, Construct_sum_of_vectors_3, square, Option.some.injEq,
    Prod.mk.injEq, Point_3.mk.injEq]
  refine ⟨?_, ?_, ?_, ?_⟩ <;> ring

theorem centroid_loop_tetrahedron_reversed (p0 p1 p2 p3 : Point_3) :
    centroid_loop (tetrahedron_reversed p0 p1 p2 p3) (tetrahedron_reversed p0 p1 p2 p3).faces
        (0, ORIGIN)
      = some (-orientation_det p0 p1 p2 p3 / 6,
          ⟨-((p0.x + p1.x + p2.x + p3.x) * orientation_det p0 p1 p2 p3) / 12,
           -((p0.y + p1.y + p2.y + p3.y) * orientation_det p0 p1 p2 p3) / 12,
           -((p0.z + p1.z + p2.z + p3.z) * orientation_det p0 p1 p2 p3) / 12⟩) := by
  have hf : (tetrahedron_reversed p0 p1 p2 p3).faces
      = [[0, 1, 2], [0, 3, 1], [1, 3, 2], [0, 2, 3]] := rfl
  rw [hf, centroid_loop_triangles (tetrahedron_reversed p0 p1 p2 p3) 0 1 2 0 3 1 1 3 2 0 2 3
      p0 p1 p2 p0 p3 p1 p1 p3 p2 p0 p2 p3
      (face_corners_triangle _ 0 1 2 p0 p1 p2 rfl rfl rfl)
      (face_corners_triangle _ 0 3 1 p0 p3 p1 rfl rfl rfl)
      (face_corners_triangle _ 1 3 2 p1 p3 p2 rfl rfl rfl)
      (face_corners_triangle _ 0 2 3 p0 p2 p3 rfl rfl rfl)]
  simp only [centroid_face_step, ORIGIN, orientation_det, determinant,
    Construct_vector_3, Construct_normal_3, cross_product, Compute_scalar_product_3,
    Construct_scaled_vector_3, Construct_sum_of_vectors_3, square, Option.some.injEq,
    Prod.mk.injEq, Point_3.mk.injEq]
  refine ⟨?_, ?_, ?_, ?_⟩ <;> ring

end Polygon_mesh_processing

end CGAL

namespace CGAL

namespace Polygon_mesh_processing

open Kernel Example

/-- C20: for four points spanning a tetrahedron of non-zero volume, `centroid` returns the
point (p0 + p1 + p2 + p3) / 4 on the closed triangle mesh of the tetrahedron, for both of
its consistent orientations. -/
theorem centroid_tetrahedron (p0 p1 p2 p3 : Point_3)
    (h : determinant (Construct_vector_3 p0 p1) (Construct_vector_3 p0 p2)
          (Construct_vector_3 p0 p3) ≠ 0) :
    centroid (tetrahedron p0 p1 p2 p3)
      = some ⟨(p0.x + p1.x + p2.x + p3.x) / 4, (p0.y + p1.y + p2.y + p3.y) / 4,
              (p0.z + p1.z + p2.z + p3.z) / 4⟩
    ∧ centroid (tetrahedron_reversed p0 p1 p2 p3)
      = some ⟨(p0.x + p1.x + p2.x + p3.x) / 4, (p0.y + p1.y + p2.y + p3.y) / 4,
              (p0.z + p1.z + p2.z + p3.z) / 4⟩ := by
  obtain ⟨h1, h2, h3, h4⟩ := tetrahedron_closed p0 p1 p2 p3
  have hd : orientation_det p0 p1 p2 p3 ≠ 0 := h
  constructor
  · rw [centroid, h1, h2, if_pos rfl, if_pos rfl, centroid_loop_tetrahedron]
    simp only [Construct_translated_point_3, Construct_scaled_vector_3, ORIGIN,
      Option.some.injEq, Point_3.mk.injEq]
    generalize orientation_det p0 p1 p2 p3 = D at hd
    refine ⟨?_, ?_, ?_⟩ <;> field_simp <;> ring
  · rw [centroid, h3, h4, if_pos rfl, if_pos rfl, centroid_loop_tetrahedron_reversed]
    simp only [Construct_translated_point_3, Construct_scaled_vector_3, ORIGIN,
      Option.some.injEq, Point_3.mk.injEq]
    generalize orientation_det p0 p1 p2 p3 = D at hd
    refine ⟨?_, ?_, ?_⟩ <;> field_simp <;> ring

/-- C20 on the tetrahedron (1,2,3), (4,0,1), (-2,5,0), (3,3,7). -/
theorem centroid_tetrahedron_witness :
    determinant (Construct_vector_3 ⟨1, 2, 3⟩ ⟨4, 0, 1⟩) (Construct_vector_3 ⟨1, 2, 3⟩ ⟨-2, 5, 0⟩)
        (Construct_vector_3 ⟨1, 2, 3⟩ ⟨3, 3, 7⟩) ≠ 0
    ∧ centroid (tetrahedron ⟨1, 2, 3⟩ ⟨4, 0, 1⟩ ⟨-2, 5, 0⟩ ⟨3, 3, 7⟩)
      = some ⟨(1 + 4 + -2 + 3) / 4, (2 + 0 + 5 + 3) / 4, (3 + 1 + 0 + 7) / 4⟩
    ∧ centroid (tetrahedron_reversed ⟨1, 2, 3⟩ ⟨4, 0, 1⟩ ⟨-2, 5, 0⟩ ⟨3, 3, 7⟩)
      = some ⟨(1 + 4 + -2 + 3) / 4, (2 + 0 + 5 + 3) / 4, (3 + 1 + 0 + 7) / 4⟩ :=
  have hdet : determinant (Construct_vector_3 ⟨1, 2, 3⟩ ⟨4, 0, 1⟩)
      (Construct_vector_3 ⟨1, 2, 3⟩ ⟨-2, 5, 0⟩) (Construct_vector_3 ⟨1, 2, 3⟩ ⟨3, 3, 7⟩) ≠ 0 := by
    simp only [determinant, Construct_vector_3]
    norm_num
  ⟨hdet, centroid_tetrahedron ⟨1, 2, 3⟩ ⟨4, 0, 1⟩ ⟨-2, 5, 0⟩ ⟨3, 3, 7⟩ hdet⟩

end Polygon_mesh_processing

end CGAL

namespace CGAL

namespace Polygon_mesh_processing

section LongestBorder

variable {H : Type} [DecidableEq H]

theorem border_cycle_loop_spec (pmesh : HalfedgeGraph H) (l : List H) :
    ∀ st : ℚ × List H,
      (border_cycle_loop pmesh l st).1 = st.1 + (l.map pmesh.edge_length).sum
      ∧ ∀ g, g ∈ (border_cycle_loop pmesh l st).2 ↔ g ∈ l ∨ g ∈ st.2 := by
  induction l with
  | nil =>
    intro st
    simp [border_cycle_loop]
  | cons haf rest ih =>
    intro st
    obtain ⟨len, visited⟩ := st
    rw [border_cycle_loop]
    obtain ⟨h1, h2⟩ := ih (len + pmesh.edge_length haf, List.insert haf visited)
    constructor
    · rw [h1]
      simp only [List.map_cons, List.sum_cons]
      ring
    · intro g
      rw [h2 g]
      simp only [List.mem_insert_iff, List.mem_cons]
      tauto

/-- The outer loop of `longest_border` keeps three facts: every visited halfedge lies on a
cycle no longer than `result_len`; `result_halfedge` is null with `result_len = 0`, or it is a
border halfedge of the range whose cycle has length `result_len`; and `result_len` does not
decrease and ends at least as large as the cycle of every border halfedge of the range. -/
theorem longest_border_loop_spec (pmesh : HalfedgeGraph H) (full : List H)
    (hcyc : ∀ h g, pmesh.is_border h = true → g ∈ pmesh.halfedges_around_face h →
      cycle_length pmesh g = cycle_length pmesh h)
    (l : List H) :
    ∀ st : List H × Option H × ℚ,
      (∀ g ∈ l, g ∈ full) →
      (∀ g ∈ st.1, cycle_length pmesh g ≤ st.2.2) →
      ((st.2.1 = none ∧ st.2.2 = 0) ∨ ∃ h, st.2.1 = some h ∧ h ∈ full
          ∧ pmesh.is_border h = true ∧ st.2.2 = cycle_length pmesh h) →
      ((longest_border_loop pmesh l st).2.1 = none ∧ (longest_border_loop pmesh l st).2.2 = 0
        ∨ ∃ h, (longest_border_loop pmesh l st).2.1 = some h ∧ h ∈ full
          ∧ pmesh.is_border h = true
          ∧ (longest_border_loop pmesh l st).2.2 = cycle_length pmesh h)
      ∧ st.2.2 ≤ (longest_border_loop pmesh l st).2.2
      ∧ ∀ g ∈ l, pmesh.is_border g = true →
          cycle_length pmesh g ≤ (longest_border_loop pmesh l st).2.2 := by
  induction l with
  | nil =>
    intro st _ _ hres
    exact ⟨by simpa [longest_border_loop] using hres, by simp [longest_border_loop],
      fun g hg => absurd hg (List.not_mem_nil g)⟩
  | cons h rest ih =>
    intro st hsub hvis hres
    obtain ⟨visited, rh, rl⟩ := st
    simp only at hvis hres
    have hsub1 : ∀ g ∈ rest, g ∈ full := fun g hg => hsub g (List.mem_cons_of_mem _ hg)
    rw [longest_border_loop]
    by_cases hv : h ∈ visited
    · -- already visited: nothing changes, and the cycle of `h` has been measured
      simp only [hv, not_true_eq_false, if_false]
      obtain ⟨i1, i2, i3⟩ := ih (visited, rh, rl) hsub1 hvis hres
      refine ⟨i1, i2, ?_⟩
      intro g hg hb
      rcases List.mem_cons.1 hg with e | hg
      · rw [e]
        exact le_trans (hvis h hv) i2
      · exact i3 g hg hb
    · simp only [hv, not_false_eq_true, if_true]
      by_cases hb : pmesh.is_border h = true
      · simp only [hb, if_true]
        obtain ⟨c1, c2⟩ := border_cycle_loop_spec pmesh (pmesh.halfedges_around_face h)
          (0, visited)
        have hlen : (border_cycle_loop pmesh (pmesh.halfedges_around_face h) (0, visited)).1
            = cycle_length pmesh h := by
          rw [c1]
          simp [cycle_length]
        rw [hlen]
        by_cases hlt : rl < cycle_length pmesh h
        · simp only [hlt, if_true]
          obtain ⟨i1, i2, i3⟩ := ih (_, some h, cycle_length pmesh h) hsub1
            (by
              intro g hg
              rcases (c2 g).1 hg with h1 | h1
              · exact le_of_eq (hcyc h g hb h1)
              · exact le_trans (hvis g h1) (le_of_lt hlt))
            (Or.inr ⟨h, rfl, hsub h (List.mem_cons_self _ _), hb, rfl⟩)
          refine ⟨i1, le_trans (le_of_lt hlt) i2, ?_⟩
          intro g hg hbg
          rcases List.mem_cons.1 hg with e | hg
          · rw [e]
            exact i2
          · exact i3 g hg hbg
        · simp only [hlt, if_false]
          obtain ⟨i1, i2, i3⟩ := ih (_, rh, rl) hsub1
            (by
              intro g hg
              rcases (c2 g).1 hg with h1 | h1
              · rw [hcyc h g hb h1]
                exact not_lt.1 hlt
              · exact hvis g h1)
            hres
          refine ⟨i1, i2, ?_⟩
          intro g hg hbg
          rcases List.mem_cons.1 hg with e | hg
          · rw [e]
            exact le_trans (not_lt.1 hlt) i2
          · exact i3 g hg hbg
      · simp only [hb, if_false]
        obtain ⟨i1, i2, i3⟩ := ih (visited, rh, rl) hsub1 hvis hres
        refine ⟨i1, i2, ?_⟩
        intro g hg hbg
        rcases List.mem_cons.1 hg with e | hg
        · rw [e] at hbg
          exact absurd hbg hb
        · exact i3 g hg hbg

/-- What `longest_border` does return: when the halfedges of a border cycle all measure the
same cycle and some border cycle has a positive length, the result is a border halfedge of
the mesh, the length of its cycle, and this length is the largest among the border cycles. -/
theorem longest_border_of_positive_cycle (pmesh : HalfedgeGraph H)
    (hcyc : ∀ h g, pmesh.is_border h = true → g ∈ pmesh.halfedges_around_face h →
      cycle_length pmesh g = cycle_length pmesh h)
    (hpos : ∃ h ∈ pmesh.halfedges, pmesh.is_border h = true ∧ 0 < cycle_length pmesh h) :
    ∃ h len, longest_border pmesh = (some h, len) ∧ h ∈ pmesh.halfedges
      ∧ pmesh.is_border h = true ∧ len = cycle_length pmesh h
      ∧ ∀ g ∈ pmesh.halfedges, pmesh.is_border g = true → cycle_length pmesh g ≤ len := by
  obtain ⟨i1, _, i3⟩ := longest_border_loop_spec pmesh pmesh.halfedges hcyc pmesh.halfedges
    ([], none, 0) (fun g hg => hg) (fun g hg => absurd hg (List.not_mem_nil g))
    (Or.inl ⟨rfl, rfl⟩)
  obtain ⟨h0, hm0, hb0, hp0⟩ := hpos
  have hbig := i3 h0 hm0 hb0
  rcases i1 with ⟨_, e2⟩ | ⟨h, e1, hm, hb, e2⟩
  · rw [e2] at hbig
    exact absurd (lt_of_lt_of_le hp0 hbig) (lt_irrefl _)
  · refine ⟨h, _, ?_, hm, hb, e2, i3⟩
    unfold longest_border
    simp only
    rw [← e1]

end LongestBorder

/-- C18 (the code at a failing input): a single triangle whose three vertices lie at the
same point has the border halfedges 3, 4, 5, all of length 0. `result_len < len` never holds,
so `longest_border` returns the null halfedge with length 0, not a border halfedge; on the
triangle with edge lengths 3, 4, 5 it returns the border halfedge 3 and the length 12. -/
theorem longest_border_null_on_zero_length_border :
    (3 ∈ Example.collapsedTriangle.halfedges ∧ Example.collapsedTriangle.is_border 3 = true)
    ∧ longest_border Example.collapsedTriangle = (none, 0)
    ∧ longest_border Example.rightTriangle = (some 3, 12) := by
  refine ⟨⟨by decide, by decide⟩, ?_, ?_⟩
  · simp [longest_border, longest_border_loop, border_cycle_loop, Example.collapsedTriangle,
      Example.triangleCycle]
  · simp [longest_border, longest_border_loop, border_cycle_loop, Example.rightTriangle,
      Example.triangleCycle]
    norm_num

end Polygon_mesh_processing

end CGAL

namespace AABB

section DistanceOperators

variable {Query Pr Id Point Obj : Type}

open Naive_implementations Tree_vs_naive

/-- On a non-empty sequence `Closest_point::operator()` is its final pair of assertions on
the squared distances of the two closest points. -/
theorem Closest_point_eq_check (FT : IEEE.Format) (T : Traits Query Pr Id Point Obj)
    (squared_distance : Point → Point → ℚ) (query : Point) (pr : Pr) (rest : List Pr)
    (tree : Tree Query Id Point Obj) :
    Closest_point FT T squared_distance query (pr :: rest) tree
      = Closest_point_check FT
          (squared_distance query
            (closest_point_loop T query (pr :: rest) (T.reference_point pr)))
          (squared_distance query (tree.closest_point query)) :=
  rfl

/-- On a non-empty sequence `Closest_point_and_primitive::operator()` is the comparison of
the naive result with the tree result. -/
theorem Closest_point_and_primitive_eq_check [DecidableEq Id] [DecidableEq Point]
    (FT : IEEE.Format) (T : Traits Query Pr Id Point Obj)
    (squared_distance : Point → Point → ℚ) (query : Point)
    (pr : Pr) (rest : List Pr) (tree : Tree Query Id Point Obj) :
    Closest_point_and_primitive FT T squared_distance query (pr :: rest) tree
      = Closest_point_and_primitive_check FT squared_distance query
          ((closest_point_and_primitive_loop T query (pr :: rest)
              (T.reference_point pr, pr)).1,
           T.id (closest_point_and_primitive_loop T query (pr :: rest)
              (T.reference_point pr, pr)).2)
          (tree.closest_point_and_primitive query) :=
  rfl

end DistanceOperators

end AABB

namespace CGAL

namespace Polygon_mesh_processing

/-- The loop over the faces of `m2` writes each visited face once: to `m2_only` or as the
second component of a pair of `common`. -/
theorem m2_faces_loop_reports_each (so : Bool) (vid : Nat → Nat) (shared : Nat → Bool)
    (l : List (List Nat)) :
    ∀ (f0 : Nat) (st : List (List Nat × Nat) × List (Nat × Nat) × List Nat),
      ((m2_faces_loop so vid shared l f0 st).2.1.map Prod.snd
          ++ (m2_faces_loop so vid shared l f0 st).2.2).Perm
        (List.range' f0 l.length ++ (st.2.1.map Prod.snd ++ st.2.2)) := by
  induction l with
  | nil =>
    intro f0 st
    simp [m2_faces_loop]
  | cons vs rest ih =>
    intro f0 st
    obtain ⟨mp, common, only⟩ := st
    have hr : List.range' f0 (vs :: rest).length = f0 :: List.range' (f0 + 1) rest.length := by
      simp [List.range'_succ]
    have honly : (List.range' (f0 + 1) rest.length
          ++ (common.map Prod.snd ++ (only ++ [f0]))).Perm
        (List.range' f0 (vs :: rest).length ++ (common.map Prod.snd ++ only)) := by
      rw [hr]
      have h1 := List.perm_append_singleton f0
        (List.range' (f0 + 1) rest.length ++ (common.map Prod.snd ++ only))
      simpa [List.append_assoc] using h1
    rw [m2_faces_loop]
    by_cases hs : (collect_face_ids vid shared vs []).2 = true
    · simp only [hs, if_true]
      cases hf : map_find mp
          (pmp_internal.rearrange_face_ids (collect_face_ids vid shared vs []).1 so) with
      | none =>
        simp only
        exact (ih (f0 + 1) _).trans honly
      | some f1 =>
        simp only
        refine (ih (f0 + 1) _).trans ?_
        rw [hr]
        have h1 : (List.range' (f0 + 1) rest.length ++ common.map Prod.snd ++ f0 :: only).Perm
            (f0 :: (List.range' (f0 + 1) rest.length ++ common.map Prod.snd ++ only)) :=
          List.perm_middle
        simpa [List.append_assoc] using h1
    · simp only [hs, if_false]
      exact (ih (f0 + 1) _).trans honly

/-- Each face of `m2` is reported exactly once by `compare_meshes`: the second components
of `common` followed by `m2_only` are a rearrangement of the face descriptors of `m2`. -/
theorem compare_meshes_reports_each_m2_face {Point : Type} [DecidableEq Point]
    (m1 m2 : PolygonMesh Point) (same_orientation : Bool) :
    ((compare_meshes m1 m2 same_orientation).common.map Prod.snd
        ++ (compare_meshes m1 m2 same_orientation).m2_only).Perm
      (List.range m2.faces.length) := by
  have h := m2_faces_loop_reports_each same_orientation
    (assign_m2_ids m2.points 0
      ((assign_m1_ids m1.points 0 ([], 0, fun _ => 2 ^ 64 - 1)).1,
       (assign_m1_ids m1.points 0 ([], 0, fun _ => 2 ^ 64 - 1)).2.1,
       (fun _ => 2 ^ 64 - 1), fun _ => false)).2.2.1
    (assign_m2_ids m2.points 0
      ((assign_m1_ids m1.points 0 ([], 0, fun _ => 2 ^ 64 - 1)).1,
       (assign_m1_ids m1.points 0 ([], 0, fun _ => 2 ^ 64 - 1)).2.1,
       (fun _ => 2 ^ 64 - 1), fun _ => false)).2.2.2
    m2.faces 0
    ((m1_faces_loop same_orientation
        (assign_m1_ids m1.points 0 ([], 0, fun _ => 2 ^ 64 - 1)).2.2
        (assign_m2_ids m2.points 0
          ((assign_m1_ids m1.points 0 ([], 0, fun _ => 2 ^ 64 - 1)).1,
           (assign_m1_ids m1.points 0 ([], 0, fun _ => 2 ^ 64 - 1)).2.1,
           (fun _ => 2 ^ 64 - 1), fun _ => false)).2.2.2
        m1.faces 0 ([], [])).1, [], [])
  simp only [List.map_nil, List.append_nil] at h
  rw [List.range_eq_range']
  exact h

end Polygon_mesh_processing

end CGAL

namespace AABB

section NaiveAgreement

variable {Query Pr Id Point Obj : Type}

open Naive_implementations

theorem do_intersect_iff_countP_pos (T : Traits Query Pr Id Point Obj) (query : Query)
    (p : List Pr) :
    do_intersect T query p = true ↔ 0 < p.countP (T.do_intersect_object query) := by
  induction p with
  | nil => simp [do_intersect]
  | cons pr rest ih =>
    rw [do_intersect, List.countP_cons]
    by_cases h : T.do_intersect_object query pr = true
    · simp [h]
    · simp [h, ih]

theorem closest_point_and_primitive_loop_fst [DecidableEq Point]
    (T : Traits Query Pr Id Point Obj) (query : Point) (l : List Pr) :
    ∀ (c : Point) (pr : Pr),
      (closest_point_and_primitive_loop T query l (c, pr)).1 = closest_point_loop T query l c := by
  induction l with
  | nil =>
    intro c pr
    rfl
  | cons tmp_pr rest ih =>
    intro c pr
    rw [closest_point_and_primitive_loop, closest_point_loop]
    by_cases h : T.closest_point_object query tmp_pr c = c
    · simp only [h, ne_eq, not_true_eq_false, if_false]
      exact ih c pr
    · simp only [h, ne_eq, not_false_eq_true, if_true]
      exact ih _ tmp_pr

/-- C25: the three intersection queries of the reference implementation agree:
`do_intersect` is true if and only if `number_of_intersected_primitives` is greater than 0,
and `number_of_intersected_primitives` is the number of ids that
`all_intersected_primitives` writes. -/
theorem naive_intersection_queries_agree (T : Traits Query Pr Id Point Obj) (query : Query)
    (p : List Pr) (out : List Id) :
    (do_intersect T query p = true ↔ 0 < number_of_intersected_primitives T query p)
    ∧ number_of_intersected_primitives T query p
        = (all_intersected_primitives T query p []).length
    ∧ (all_intersected_primitives T query p out).length
        = out.length + number_of_intersected_primitives T query p := by
  have hn : number_of_intersected_primitives T query p
      = p.countP (T.do_intersect_object query) := by
    simp [number_of_intersected_primitives, number_loop_eq]
  refine ⟨?_, ?_, ?_⟩
  · rw [hn]
    exact do_intersect_iff_countP_pos T query p
  · rw [hn, all_intersected_primitives_eq]
    simp [List.countP_eq_length_filter]
  · rw [hn, all_intersected_primitives_eq]
    simp [List.countP_eq_length_filter]

/-- C26: for every closest_point functor and every query point, the point returned by
`closest_point_and_primitive` is the point returned by `closest_point` (both fail on the
empty sequence), so the squared distances of the two results to the query are equal. -/
theorem closest_point_and_primitive_same_point [DecidableEq Point]
    (T : Traits Query Pr Id Point Obj) (query : Point) (p : List Pr) (pr : Pr)
    (rest : List Pr) (squared_distance : Point → Point → ℚ) :
    (closest_point_and_primitive T query p).map Prod.fst = closest_point T query p
    ∧ (∃ c id, closest_point_and_primitive T query (pr :: rest) = some (c, id)
        ∧ closest_point T query (pr :: rest) = some c)
    ∧ (closest_point_and_primitive T query p).map (fun r => squared_distance query r.1)
        = (closest_point T query p).map (fun c => squared_distance query c) := by
  have h : ∀ l : List Pr,
      (closest_point_and_primitive T query l).map Prod.fst = closest_point T query l := by
    intro l
    cases l with
    | nil => rfl
    | cons a l =>
      simp only [closest_point_and_primitive, closest_point, Option.map_some']
      rw [closest_point_and_primitive_loop_fst]
  refine ⟨h p, ⟨_, _, rfl, ?_⟩, ?_⟩
  · simp only [closest_point]
    rw [closest_point_and_primitive_loop_fst]
  · rw [← h p, Option.map_map]
    rfl

end NaiveAgreement

section RandomPoints

/-- With `rand()` = 0 the result of `random_in` is `a`, inside the interval. -/
theorem random_in_narrowBox_zero :
    random_in 2147483647 0 Example.narrowBox.xmin Example.narrowBox.xmax
      = some Example.narrowBox.xmin := by
  decide!

end RandomPoints

end AABB

namespace clarified

/-- On the unit box and the ray from (-1, 2, 0) with direction (1, -1, 1/2), which is in the
box at t = 1, `intersect` returns true. -/
theorem intersect_accepts_slantedRay :
    Example.slantedRay.consistent IEEE.binary64
    ∧ hits_at Example.unitBox Example.slantedRay 1
    ∧ intersect IEEE.binary64 Example.unitBox Example.slantedRay = some true := by
  refine ⟨?_, ?_, by decide!⟩
  · unfold Ray.consistent
    decide!
  · unfold hits_at
    decide!

end clarified

namespace CGAL

namespace Algebraic_curve_kernel_2

/-- The precondition `0 >= i && i < x_points.size()` fails for every positive index. -/
theorem critical_point_at_positive_index {Curve_analysis_2 Xy_coordinate_2 : Type}
    (critical_points : Curve_analysis_2 → List Xy_coordinate_2) (ca : Curve_analysis_2)
    (i : Int) (hi : 1 ≤ i) :
    X_critical_points_2_at critical_points ca i = none
    ∧ Y_critical_points_2_at critical_points ca i = none := by
  have h : ¬ (0 ≥ i) := by omega
  simp [X_critical_points_2_at, Y_critical_points_2_at, h]

/-- With index 0 and at least one critical point the call returns the first point. -/
theorem critical_point_at_zero {Curve_analysis_2 Xy_coordinate_2 : Type}
    (critical_points : Curve_analysis_2 → List Xy_coordinate_2) (ca : Curve_analysis_2)
    (p : Xy_coordinate_2) (rest : List Xy_coordinate_2) (h : critical_points ca = p :: rest) :
    X_critical_points_2_at critical_points ca 0 = some p
    ∧ Y_critical_points_2_at critical_points ca 0 = some p := by
  simp [X_critical_points_2_at, Y_critical_points_2_at, h, to_size_t]

/-- C21 (the code at a failing input): the unit circle has two x-critical and two
y-critical points, yet for the index 1 the precondition `0 >= i && i < size` is false and
neither call returns the second point; only the index 0 passes. -/
theorem critical_point_precondition_rejects_index_one :
    (Example.circle_x_critical_points ()).length = 2
    ∧ (Example.circle_y_critical_points ()).length = 2
    ∧ X_critical_points_2_at Example.circle_x_critical_points () 1 = none
    ∧ Y_critical_points_2_at Example.circle_y_critical_points () 1 = none
    ∧ X_critical_points_2_at Example.circle_x_critical_points () 0 = some (-1, 0)
    ∧ Y_critical_points_2_at Example.circle_y_critical_points () 0 = some (0, -1) := by
  refine ⟨rfl, rfl, by decide, by decide, by decide, by decide⟩

end Algebraic_curve_kernel_2

namespace Embree

/-- The function `AABB_tree::insert` leaves `id2geometry` as it was and appends to
`geometries` a geometry whose `rtc_geomID` was never assigned, whatever the tree. -/
theorem insert_leaves_mapping {TriangleMesh : Type} (tree : AABB_tree TriangleMesh)
    (t : TriangleMesh) :
    (tree.insert t).id2geometry = tree.id2geometry
    ∧ (tree.insert t).geometries
        = tree.geometries ++ [{ surfaceMesh := t, rtc_geometry := none, rtc_geomID := none }]
    ∧ (tree.insert_local_geometry t).rtc_geomID = some tree.scene.length
    ∧ (tree.insert_local_geometry t).surfaceMesh = t := by
  refine ⟨rfl, rfl, rfl, ?_⟩
  simp [AABB_tree.insert_local_geometry, Triangle_mesh_geometry.construct]

/-- C24 (the code at a failing input): a mesh (handle 7) is inserted in a new tree. Its
geometry is attached to the scene under the id 0, but the id is assigned to a local copy:
after `insert`, `id2geometry` is still empty, the geometry stored in `geometries` has no
`rtc_geomID`, and a hit with `geomID = 0` is not turned into a primitive id of the mesh. -/
theorem insert_does_not_record_geomID :
    ((AABB_tree.construct Nat).insert_local_geometry 7).rtc_geomID = some 0
    ∧ ((AABB_tree.construct Nat).insert 7).scene = [0]
    ∧ ((AABB_tree.construct Nat).insert 7).id2geometry = []
    ∧ Polygon_mesh_processing.map_find ((AABB_tree.construct Nat).insert 7).id2geometry 0 = none
    ∧ ((AABB_tree.construct Nat).insert 7).geometries
        = [{ surfaceMesh := 7, rtc_geometry := none, rtc_geomID := none }]
    ∧ ((AABB_tree.construct Nat).insert 7).primitive_of_hit (some (0, 3)) = none := by
  refine ⟨by decide, by decide, rfl, rfl, rfl, rfl⟩

end Embree

end CGAL
